import Mathlib

/-!
# Request normalisation and dispatch of `graphql-fasthttp-handler`

A shallow embedding of `handler.go`, `graphiql.go` and `graphcoolPlayground.go`:
the request options resolver `NewRequestOptions` with its helper `getFromForm`,
the dispatcher `ServeHTTP` with `renderGraphiQL`, `renderPlayground` and
`serveStatic`, and the constructor `New`, together with the parts of the Go
standard library (`encoding/json`, `strings`, `path/filepath`) and of
`fasthttp` that they call.

Conventions.
* Go byte slices and strings are Lean `String`s (a text stands for its UTF-8
  bytes); a `nil` slice or map is `none`.
* Go's `float64` is an abstract type `F`; the conversion of a JSON number
  literal (`strconv.ParseFloat`) is a field of `Runtime`.
* The GraphQL engine, the serializers, the page templates and the asset store
  are the fields of `Env`; the calls a request makes are recorded as `Event`s.
* A panic is the result `none` of a function into `Option`, or the flag
  `panicked` of the request context.
-/

namespace Handler

/-! ## `encoding/json`: syntax -/

namespace json

/-- A syntactically valid JSON text, as the scanner of `encoding/json` reads it.
A number keeps its literal; object members keep their order and duplicates. -/
inductive Value where
  | null
  | bool (b : Bool)
  | number (lit : String)
  | string (s : String)
  | array (elems : List Value)
  | object (members : List (String × Value))

/-- The scanner's `isSpace`. -/
def isSpace (c : Char) : Bool :=
  c == ' ' || c == '\t' || c == '\r' || c == '\n'

/-- Drops leading JSON white space. -/
def skipSpace : List Char → List Char
  | [] => []
  | c :: cs => if isSpace c then skipSpace cs else c :: cs

/-- The nesting limit of the scanner (`maxNestingDepth`). -/
def maxNestingDepth : Nat := 10000

/-- Value of a hexadecimal digit. -/
def hexVal (c : Char) : Option Nat :=
  if '0' ≤ c ∧ c ≤ '9' then some (c.toNat - '0'.toNat)
  else if 'a' ≤ c ∧ c ≤ 'f' then some (c.toNat - 'a'.toNat + 10)
  else if 'A' ≤ c ∧ c ≤ 'F' then some (c.toNat - 'A'.toNat + 10)
  else none

/-- The decoder's `getu4`: the code unit of a leading `\uXXXX`, with the rest. -/
def getu4 : List Char → Option (Nat × List Char)
  | '\\' :: 'u' :: a :: b :: c :: d :: rest =>
    match hexVal a, hexVal b, hexVal c, hexVal d with
    | some x, some y, some z, some w => some (((x * 16 + y) * 16 + z) * 16 + w, rest)
    | _, _, _, _ => none
  | _ => none

/-- The Unicode replacement character, `unicode.ReplacementChar`. -/
def replacementChar : Char := Char.ofNat 0xFFFD

/-- Is the code unit a UTF-16 surrogate (`utf16.IsSurrogate`)? -/
def isSurrogate (r : Nat) : Bool := 0xD800 ≤ r && r < 0xE000

/-- The rune of a surrogate pair (`utf16.DecodeRune`), `none` for an invalid pair. -/
def decodeSurrogates (r1 r2 : Nat) : Option Char :=
  if 0xD800 ≤ r1 ∧ r1 < 0xDC00 ∧ 0xDC00 ≤ r2 ∧ r2 < 0xE000 then
    some (Char.ofNat ((r1 - 0xD800) * 0x400 + (r2 - 0xDC00) + 0x10000))
  else none

/-- Reads a string literal after its opening quote: the unquoted text and the
input after the closing quote. Control characters and unknown escapes are
syntax errors; an unpaired surrogate escape becomes the replacement character. -/
def scanString : Nat → List Char → Option (List Char × List Char)
  | 0, _ => none
  | _ + 1, [] => none
  | _ + 1, '"' :: rest => some ([], rest)
  | fuel + 1, '\\' :: 'u' :: rest =>
    match getu4 ('\\' :: 'u' :: rest) with
    | none => none
    | some (rr, rest1) =>
      if isSurrogate rr then
        match getu4 rest1 with
        | some (rr1, rest2) =>
          match decodeSurrogates rr rr1 with
          | some ch => (scanString fuel rest2).map fun p => (ch :: p.1, p.2)
          | none => (scanString fuel rest1).map fun p => (replacementChar :: p.1, p.2)
        | none => (scanString fuel rest1).map fun p => (replacementChar :: p.1, p.2)
      else (scanString fuel rest1).map fun p => (Char.ofNat rr :: p.1, p.2)
  | fuel + 1, '\\' :: e :: rest =>
    let esc : Option Char :=
      if e == '"' then some '"' else if e == '\\' then some '\\'
      else if e == '/' then some '/' else if e == 'b' then some (Char.ofNat 8)
      else if e == 'f' then some (Char.ofNat 12) else if e == 'n' then some '\n'
      else if e == 'r' then some '\r' else if e == 't' then some '\t' else none
    match esc with
    | none => none
    | some ch => (scanString fuel rest).map fun p => (ch :: p.1, p.2)
  | _ + 1, ['\\'] => none
  | fuel + 1, c :: rest =>
    if c.toNat < 0x20 then none
    else (scanString fuel rest).map fun p => (c :: p.1, p.2)

/-- The longest run of decimal digits at the head of the input. -/
def scanDigits : List Char → List Char × List Char
  | [] => ([], [])
  | c :: cs =>
    if c.isDigit then ((scanDigits cs).1.cons c, (scanDigits cs).2) else ([], c :: cs)

/-- The integer part of a number: `0`, or a non-zero digit and more digits. -/
def scanInt : List Char → Option (List Char × List Char)
  | '0' :: rest => some (['0'], rest)
  | c :: rest =>
    if c.isDigit then some (c :: (scanDigits rest).1, (scanDigits rest).2) else none
  | [] => none

/-- An optional fraction: `.` and at least one digit. -/
def scanFrac : List Char → Option (List Char × List Char)
  | '.' :: rest =>
    match scanDigits rest with
    | ([], _) => none
    | (ds, rest1) => some ('.' :: ds, rest1)
  | cs => some ([], cs)

/-- An optional exponent: `e` or `E`, an optional sign and at least one digit. -/
def scanExp : List Char → Option (List Char × List Char)
  | c :: rest =>
    if c == 'e' || c == 'E' then
      match rest with
      | s :: rest1 =>
        if s == '+' || s == '-' then
          match scanDigits rest1 with
          | ([], _) => none
          | (ds, rest2) => some (c :: s :: ds, rest2)
        else
          match scanDigits rest with
          | ([], _) => none
          | (ds, rest2) => some (c :: ds, rest2)
      | [] => none
    else some ([], c :: rest)
  | [] => some ([], [])

/-- Reads a number literal: an optional `-`, an integer part, an optional
fraction and an optional exponent. -/
def scanNumber (cs : List Char) : Option (List Char × List Char) :=
  let (sign, cs1) := match cs with
    | '-' :: rest => (['-'], rest)
    | _ => ([], cs)
  match scanInt cs1 with
  | none => none
  | some (i, cs2) =>
    match scanFrac cs2 with
    | none => none
    | some (f, cs3) =>
      match scanExp cs3 with
      | none => none
      | some (e, cs4) => some (sign ++ i ++ f ++ e, cs4)

/-- Strips a literal keyword from the head of the input. -/
def scanLit (kw : List Char) (cs : List Char) : Option (List Char) :=
  if kw.isPrefixOf cs then some (cs.drop kw.length) else none

mutual
/-- Reads one JSON value at nesting depth `depth`. -/
def scanValue : Nat → Nat → List Char → Option (Value × List Char)
  | 0, _, _ => none
  | fuel + 1, depth, cs =>
    match cs with
    | [] => none
    | '{' :: rest =>
      if depth + 1 > maxNestingDepth then none
      else match skipSpace rest with
        | '}' :: rest1 => some (Value.object [], rest1)
        | rest1 => (scanMembers fuel (depth + 1) rest1).map fun p => (Value.object p.1, p.2)
    | '[' :: rest =>
      if depth + 1 > maxNestingDepth then none
      else match skipSpace rest with
        | ']' :: rest1 => some (Value.array [], rest1)
        | rest1 => (scanElements fuel (depth + 1) rest1).map fun p => (Value.array p.1, p.2)
    | '"' :: rest => (scanString (rest.length + 1) rest).map fun p => (Value.string (String.mk p.1), p.2)
    | 't' :: _ => (scanLit ['t', 'r', 'u', 'e'] cs).map fun r => (Value.bool true, r)
    | 'f' :: _ => (scanLit ['f', 'a', 'l', 's', 'e'] cs).map fun r => (Value.bool false, r)
    | 'n' :: _ => (scanLit ['n', 'u', 'l', 'l'] cs).map fun r => (Value.null, r)
    | _ => (scanNumber cs).map fun p => (Value.number (String.mk p.1), p.2)
/-- Reads the members of a non-empty object up to its closing brace. -/
def scanMembers : Nat → Nat → List Char → Option (List (String × Value) × List Char)
  | 0, _, _ => none
  | fuel + 1, depth, cs =>
    match cs with
    | '"' :: rest =>
      match scanString (rest.length + 1) rest with
      | none => none
      | some (key, rest1) =>
        match skipSpace rest1 with
        | ':' :: rest2 =>
          match scanValue fuel depth (skipSpace rest2) with
          | none => none
          | some (v, rest3) =>
            match skipSpace rest3 with
            | '}' :: rest4 => some ([(String.mk key, v)], rest4)
            | ',' :: rest4 =>
              (scanMembers fuel depth (skipSpace rest4)).map fun p =>
                ((String.mk key, v) :: p.1, p.2)
            | _ => none
        | _ => none
    | _ => none
/-- Reads the elements of a non-empty array up to its closing bracket. -/
def scanElements : Nat → Nat → List Char → Option (List Value × List Char)
  | 0, _, _ => none
  | fuel + 1, depth, cs =>
    match scanValue fuel depth cs with
    | none => none
    | some (v, rest) =>
      match skipSpace rest with
      | ']' :: rest1 => some ([v], rest1)
      | ',' :: rest1 =>
        (scanElements fuel depth (skipSpace rest1)).map fun p => (v :: p.1, p.2)
      | _ => none
end

/-- The validity check of `Unmarshal` (`checkValid`) together with the value it
scans: one JSON value surrounded by optional white space, `none` on a syntax
error. -/
def parse (data : String) : Option Value :=
  match scanValue (data.length + 1) 0 (skipSpace data.toList) with
  | some (v, rest) => if (skipSpace rest).isEmpty then some v else none
  | none => none

/-- Is the value the literal `null`? -/
def Value.isNull : Value → Bool
  | .null => true
  | _ => false

/-- Is the value an object? -/
def Value.isObject : Value → Bool
  | .object _ => true
  | _ => false

end json

/-! ## `encoding/json`: decoding into Go values -/

/-- A Go value of type `interface{}` as `encoding/json` produces it; `F` stands
for `float64`. -/
inductive GoValue (F : Type) where
  | nil
  | bool (b : Bool)
  | float64 (f : F)
  | string (s : String)
  | slice (elems : List (GoValue F))
  | map (entries : List (String × GoValue F))

/-- A non-nil `map[string]interface{}`: its entries, one per key. -/
abbrev GoMap (F : Type) := List (String × GoValue F)

/-- The assignment `m[k] = v`. -/
def GoMap.assign {F : Type} : GoMap F → String → GoValue F → GoMap F
  | [], k, v => [(k, v)]
  | (k1, v1) :: rest, k, v =>
    if k1 = k then (k, v) :: rest else (k1, v1) :: GoMap.assign rest k v

namespace json

mutual
/-- The decoder's `valueInterface`: the Go value of a JSON value, and whether an
error was saved (a number that `ParseFloat` rejects decodes to `nil`). -/
def valueInterface {F : Type} (parseFloat : String → Option F) : Value → GoValue F × Bool
  | .null => (.nil, false)
  | .bool b => (.bool b, false)
  | .number lit =>
    match parseFloat lit with
    | some f => (.float64 f, false)
    | none => (.nil, true)
  | .string s => (.string s, false)
  | .array elems => ((arrayInterface parseFloat elems).1 |> GoValue.slice, (arrayInterface parseFloat elems).2)
  | .object members => ((objectInto parseFloat [] members).1 |> GoValue.map, (objectInto parseFloat [] members).2)
/-- The decoder's `arrayInterface`. -/
def arrayInterface {F : Type} (parseFloat : String → Option F) : List Value → List (GoValue F) × Bool
  | [] => ([], false)
  | v :: vs =>
    ((valueInterface parseFloat v).1 :: (arrayInterface parseFloat vs).1,
      (valueInterface parseFloat v).2 || (arrayInterface parseFloat vs).2)
/-- Decodes the members of an object into the map `m`, in order, each by
`m[key] = value` (`objectInterface` starts from an empty map). -/
def objectInto {F : Type} (parseFloat : String → Option F) : GoMap F → List (String × Value) → GoMap F × Bool
  | m, [] => (m, false)
  | m, (k, v) :: ms =>
    ((objectInto parseFloat (m.assign k (valueInterface parseFloat v).1) ms).1,
      (valueInterface parseFloat v).2 || (objectInto parseFloat (m.assign k (valueInterface parseFloat v).1) ms).2)
end

/-- Stores a JSON value into a Go `string`: a string is stored, `null` is
ignored, anything else is an `UnmarshalTypeError`. Returns the new value and
whether an error was saved. -/
def storeString (old : String) : Value → String × Bool
  | .string s => (s, false)
  | .null => (old, false)
  | _ => (old, true)

/-- Stores a JSON value into a `map[string]interface{}` (`none` is the nil map):
`null` sets the map to nil, an object is decoded into the map (allocated when
nil, otherwise added to), anything else is an `UnmarshalTypeError`. -/
def storeMap {F : Type} (parseFloat : String → Option F) (old : Option (GoMap F)) :
    Value → Option (GoMap F) × Bool
  | .null => (none, false)
  | .object members =>
    (some (objectInto parseFloat (old.getD []) members).1,
      (objectInto parseFloat (old.getD []) members).2)
  | _ => (old, true)

/-- The smallest rune of the fold orbit, for the runes whose orbit meets ASCII
(letters, the Kelvin sign and the long s); any other rune is left in place,
which does not change a comparison with an ASCII name. -/
def foldRune (c : Char) : Char :=
  if 'a' ≤ c ∧ c ≤ 'z' then Char.ofNat (c.toNat - 32)
  else if c = Char.ofNat 0x212A then 'K'
  else if c = Char.ofNat 0x17F then 'S'
  else c

/-- The decoder's `foldName`, used for the case-insensitive match of a key. -/
def foldName (s : String) : String := String.mk (s.toList.map foldRune)

/-- The struct field a JSON key selects among the fields named `names`: an
exact match first, then a match of the folded names. -/
def findField (names : List String) (key : String) : Option String :=
  match names.find? (fun n => n == key) with
  | some n => some n
  | none => names.find? (fun n => foldName n == foldName key)

/-- `Unmarshal(data, &m)` for `m` of type `map[string]interface{}`: the new
value of `m` and whether an error is returned. Invalid syntax leaves `m` as it
was. -/
def UnmarshalMap {F : Type} (parseFloat : String → Option F) (data : String)
    (m : Option (GoMap F)) : Option (GoMap F) × Bool :=
  match parse data with
  | none => (m, true)
  | some v => storeMap parseFloat m v

end json

/-! ## The request options (`handler.go`) -/

/-- The struct `RequestOptions`: the normalised GraphQL request. `Variables` is
`none` for the nil map. -/
structure RequestOptions (F : Type) where
  Query : String := ""
  Variables : Option (GoMap F) := none
  OperationName : String := ""

/-- The struct `requestOptionsCompatibility`: `variables` read as a JSON string. -/
structure requestOptionsCompatibility where
  Query : String := ""
  Variables : String := ""
  OperationName : String := ""

/-- The `json` tags of the fields of both structs, in declaration order. -/
def jsonFieldNames : List String := ["query", "variables", "operationName"]

namespace json

/-- Decodes one object member into a `RequestOptions`: the field selected by
the key receives the value, an unknown key is skipped. -/
def storeRequestOptionsField {F : Type} (parseFloat : String → Option F) (opts : RequestOptions F)
    (key : String) (v : Value) : RequestOptions F × Bool :=
  match findField jsonFieldNames key with
  | none => (opts, false)
  | some name =>
    if name = "query" then
      ({ opts with Query := (storeString opts.Query v).1 }, (storeString opts.Query v).2)
    else if name = "variables" then
      ({ opts with Variables := (storeMap parseFloat opts.Variables v).1 },
        (storeMap parseFloat opts.Variables v).2)
    else
      ({ opts with OperationName := (storeString opts.OperationName v).1 },
        (storeString opts.OperationName v).2)

/-- Decodes the members of an object into a `RequestOptions`, in order; the
decoder goes on after a type error and reports it at the end. -/
def objectRequestOptions {F : Type} (parseFloat : String → Option F) :
    RequestOptions F → List (String × Value) → RequestOptions F × Bool
  | opts, [] => (opts, false)
  | opts, (k, v) :: ms =>
    ((objectRequestOptions parseFloat (storeRequestOptionsField parseFloat opts k v).1 ms).1,
      (storeRequestOptionsField parseFloat opts k v).2 ||
        (objectRequestOptions parseFloat (storeRequestOptionsField parseFloat opts k v).1 ms).2)

/-- `Unmarshal(data, &opts)` for `opts` of type `RequestOptions`: the new value
of `opts` and whether an error is returned. Invalid syntax leaves `opts` as it
was; `null` is ignored; a value that is neither `null` nor an object is an
`UnmarshalTypeError`. -/
def UnmarshalRequestOptions {F : Type} (parseFloat : String → Option F) (data : String)
    (opts : RequestOptions F) : RequestOptions F × Bool :=
  match parse data with
  | none => (opts, true)
  | some (.object members) => objectRequestOptions parseFloat opts members
  | some .null => (opts, false)
  | some _ => (opts, true)

/-- Decodes one object member into a `requestOptionsCompatibility`. -/
def storeCompatibilityField (opts : requestOptionsCompatibility) (key : String) (v : Value) :
    requestOptionsCompatibility × Bool :=
  match findField jsonFieldNames key with
  | none => (opts, false)
  | some name =>
    if name = "query" then
      ({ opts with Query := (storeString opts.Query v).1 }, (storeString opts.Query v).2)
    else if name = "variables" then
      ({ opts with Variables := (storeString opts.Variables v).1 }, (storeString opts.Variables v).2)
    else
      ({ opts with OperationName := (storeString opts.OperationName v).1 },
        (storeString opts.OperationName v).2)

/-- Decodes the members of an object into a `requestOptionsCompatibility`. -/
def objectCompatibility :
    requestOptionsCompatibility → List (String × Value) → requestOptionsCompatibility × Bool
  | opts, [] => (opts, false)
  | opts, (k, v) :: ms =>
    ((objectCompatibility (storeCompatibilityField opts k v).1 ms).1,
      (storeCompatibilityField opts k v).2 ||
        (objectCompatibility (storeCompatibilityField opts k v).1 ms).2)

/-- The values of the members of an object that the decoder stores into the
struct field tagged `name`, in the order of the object. -/
def fieldValues (name : String) (members : List (String × Value)) : List Value :=
  (members.filter fun kv => findField jsonFieldNames kv.1 == some name).map fun kv => kv.2

/-- A `string` field after the given values were stored into it, one after the other. -/
def storeStrings (old : String) (vs : List Value) : String :=
  vs.foldl (fun o v => (storeString o v).1) old

/-- A map field after the given values were stored into it, one after the other. -/
def storeMaps {F : Type} (parseFloat : String → Option F) (old : Option (GoMap F))
    (vs : List Value) : Option (GoMap F) :=
  vs.foldl (fun o v => (storeMap parseFloat o v).1) old

/-- `Unmarshal(data, &opts)` for `opts` of type `requestOptionsCompatibility`. -/
def UnmarshalCompatibility (data : String) (opts : requestOptionsCompatibility) :
    requestOptionsCompatibility × Bool :=
  match parse data with
  | none => (opts, true)
  | some (.object members) => objectCompatibility opts members
  | some .null => (opts, false)
  | some _ => (opts, true)

end json

/-! ## `strings` and `fasthttp` -/

namespace strings

/-- The pieces of a text between the occurrences of a one-character separator;
never empty. -/
def splitChars (sep : Char) : List Char → List (List Char)
  | [] => [[]]
  | c :: cs =>
    if c = sep then [] :: splitChars sep cs
    else
      match splitChars sep cs with
      | [] => [[c]]
      | t :: ts => (c :: t) :: ts

/-- `strings.Split(s, sep)` for a separator of one character. -/
def Split (s : String) (sep : Char) : List String :=
  (splitChars sep s.toList).map String.mk

end strings

/-- One key/value pair of `fasthttp.Args`; `noValue` marks a key without `=`. -/
structure argsKV where
  key : String
  value : String := ""
  noValue : Bool := false

/-- The decoded arguments `fasthttp.Args`, in the order of the wire. -/
abbrev Args := List argsKV

/-- `Args.Peek`: the value of the first pair with the given key, `none` (nil)
when there is none. -/
def Args.Peek (a : Args) (key : String) : Option String :=
  (a.find? (fun kv => kv.key == key)).map (fun kv => kv.value)

/-- `Args.Has`: is there a pair with the given key? -/
def Args.Has (a : Args) (key : String) : Bool :=
  a.any (fun kv => kv.key == key)

/-- The library functions whose result this development does not compute:
`ParseFloat` is `strconv.ParseFloat(s, 64)` (`none` for a range error) and
`ParseBytes` is `fasthttp`'s `Args.ParseBytes`, the decoder of a query string
or a URL-encoded form. -/
structure Runtime (F : Type) where
  ParseFloat : String → Option F
  ParseBytes : String → Args

/-- The parts of a `fasthttp.Request` the handler reads. -/
structure Request where
  method : String := ""
  queryString : String := ""
  contentType : String := ""
  body : Option String := none
  accept : String := ""
  host : String := ""
  path : String := "/"

/-- The conversion `string(b)` of a byte slice that may be nil. -/
def bytesToString (b : Option String) : String := b.getD ""

/-- The length `len(b)` of a byte slice that may be nil. -/
def len (b : Option String) : Nat := (b.getD "").utf8ByteSize

/-- `RequestHeader.Method`: `GET` when no method is set. -/
def Request.Method (r : Request) : String :=
  if r.method.utf8ByteSize = 0 then "GET" else r.method

/-- `RequestHeader.IsPost`. -/
def Request.IsPost (r : Request) : Bool := r.Method == "POST"

/-- `URI.QueryArgs`: the decoded query string. -/
def Request.QueryArgs {F : Type} (L : Runtime F) (r : Request) : Args :=
  L.ParseBytes r.queryString

/-- `Request.PostArgs`: the decoded body when the Content-Type header starts
with `application/x-www-form-urlencoded`, no arguments otherwise. -/
def Request.PostArgs {F : Type} (L : Runtime F) (r : Request) : Args :=
  if "application/x-www-form-urlencoded".toList.isPrefixOf r.contentType.toList then
    L.ParseBytes (bytesToString r.body)
  else []

def ContentTypeJSON : String := "application/json"

def ContentTypeGraphQL : String := "application/graphql"

def ContentTypeFormURLEncoded : String := "application/x-www-form-urlencoded"

/-- The function `getFromForm`; `none` is the nil pointer. -/
def getFromForm {F : Type} (L : Runtime F) (args : Args) : Option (RequestOptions F) :=
  let query := args.Peek "query"
  if len query > 0 then
    let variablesMap : Option (GoMap F) := some []
    let variablesBytes := args.Peek "variables"
    let variablesMap :=
      (json.UnmarshalMap L.ParseFloat (bytesToString variablesBytes) variablesMap).1
    some { Query := bytesToString query
           Variables := variablesMap
           OperationName := bytesToString (args.Peek "operationName") }
  else none

/-- The function `NewRequestOptions`; `none` is a panic (the index expression
`contentTypeTokens[0]` out of range). -/
def NewRequestOptions {F : Type} (L : Runtime F) (r : Request) : Option (RequestOptions F) :=
  match getFromForm L (r.QueryArgs L) with
  | some reqOpt => some reqOpt
  | none =>
    if !r.IsPost then some {}
    else
      match r.body with
      | none => some {}
      | some body =>
        let contentTypeStr := r.contentType
        let contentTypeTokens := strings.Split contentTypeStr ';'
        match contentTypeTokens[0]? with
        | none => none
        | some contentType =>
          if contentType = ContentTypeGraphQL then some { Query := body }
          else if contentType = ContentTypeFormURLEncoded then
            match getFromForm L (r.PostArgs L) with
            | some reqOpt => some reqOpt
            | none => some {}
          else
            let first := json.UnmarshalRequestOptions L.ParseFloat body {}
            if first.2 then
              let optsCompatible := (json.UnmarshalCompatibility body {}).1
              some { first.1 with
                Variables :=
                  (json.UnmarshalMap L.ParseFloat optsCompatible.Variables first.1.Variables).1 }
            else some first.1

/-! ## A concrete runtime -/

/-- One decoded piece of a query string: `+` read as a space. Percent escapes
are not decoded. -/
def decodeArgPlain (cs : List Char) : String :=
  String.mk (cs.map fun c => if c = '+' then ' ' else c)

/-- The pair of one `key=value` piece; a piece without `=` is a key with no value. -/
def scanArg (piece : List Char) : argsKV :=
  match strings.splitChars '=' piece with
  | [k] => { key := decodeArgPlain k, value := "", noValue := true }
  | k :: _ => { key := decodeArgPlain k, value := decodeArgPlain (piece.drop (k.length + 1)) }
  | [] => { key := "" }

/-- The argument scanner of `fasthttp` on a text without percent escapes: the
pieces between `&`, each split at its first `=`, empty pieces dropped. -/
def parseBytesPlain (s : String) : Args :=
  if s.utf8ByteSize = 0 then []
  else
    ((strings.splitChars '&' s.toList).map scanArg).filter fun kv =>
      kv.key.utf8ByteSize > 0 || kv.value.utf8ByteSize > 0

/-- A runtime for evaluating examples: numbers keep their literal as their
value, and query strings are free of percent escapes. -/
def plainRuntime : Runtime String where
  ParseFloat := fun lit => some lit
  ParseBytes := parseBytesPlain

/-! ## More of `strings`, `path/filepath` and byte slices -/

namespace strings

/-- `strings.Contains(s, substr)`. -/
def Contains (s substr : String) : Bool :=
  s.toList.tails.any fun t => substr.toList.isPrefixOf t

/-- The byte offset of the first occurrence of `sub` in the text, if any. -/
def indexChars (sub : List Char) : List Char → Option Nat
  | [] => if sub.isEmpty then some 0 else none
  | c :: cs =>
    if sub.isPrefixOf (c :: cs) then some 0
    else (indexChars sub cs).map fun i => i + c.utf8Size

/-- `strings.Index(s, substr)`: the byte offset of the first occurrence, `-1`
when there is none. -/
def Index (s substr : String) : Int :=
  match indexChars substr.toList s.toList with
  | some i => (i : Int)
  | none => -1

/-- `strings.TrimSuffix(s, suffix)`. -/
def TrimSuffix (s suffix : String) : String :=
  if suffix.toList.isSuffixOf s.toList then
    String.mk (s.toList.take (s.toList.length - suffix.toList.length))
  else s

/-- `strings.TrimPrefix(s, prefix)`. -/
def TrimPrefix (s pre : String) : String :=
  if pre.toList.isPrefixOf s.toList then String.mk (s.toList.drop pre.toList.length) else s

end strings

/-- Drops the characters that hold the first `n` bytes of a text. -/
def dropBytes : Nat → List Char → List Char
  | _, [] => []
  | 0, cs => cs
  | n + 1, c :: cs => dropBytes (n + 1 - c.utf8Size) cs

/-- The slice expression `s[n:]` of a string: a panic (`none`) when `n` is
negative or beyond the length. -/
def sliceFrom (s : String) (n : Int) : Option String :=
  if 0 ≤ n ∧ n.toNat ≤ s.utf8ByteSize then some (String.mk (dropBytes n.toNat s.toList)) else none

namespace filepath

/-- The extension scan of `filepath.Ext` over the reversed path: back to the
last dot of the last path element. -/
def extChars : List Char → List Char → List Char
  | [], _ => []
  | c :: rest, acc =>
    if c = '/' then [] else if c = '.' then '.' :: acc else extChars rest (c :: acc)

/-- `filepath.Ext(path)`: the suffix from the last dot of the last element of
the path, empty when it has no dot. -/
def Ext (path : String) : String := String.mk (extChars path.toList.reverse [])

end filepath

/-- A byte slice as an asset store returns it: its bytes and the capacity left
behind them (`cap = len + spare`). -/
structure Content where
  bytes : String := ""
  spare : Nat := 0

/-- The capacity `cap(content)`. -/
def Content.cap (c : Content) : Nat := c.bytes.utf8ByteSize + c.spare

/-- The error result of the asset store's `Find`. -/
inductive FindError where
  | nil
  | notExist
  | other (msg : String)

/-! ## The GraphQL engine and the other collaborators -/

/-- A `location.SourceLocation`. -/
structure SourceLocation where
  Line : Int
  Column : Int

/-- The struct `gqlerrors.FormattedError`; `Err` is the type of Go `error`
values (nil included). -/
structure FormattedError (F Err : Type) where
  Message : String := ""
  Locations : List SourceLocation := []
  Path : List (GoValue F) := []
  Extensions : Option (GoMap F) := none
  originalError : Err

/-- The method `FormattedError.OriginalError`. -/
def FormattedError.OriginalError {F Err : Type} (g : FormattedError F Err) : Err :=
  g.originalError

/-- The struct `graphql.Result`. -/
structure Result (F Err : Type) where
  Data : GoValue F := GoValue.nil
  Errors : List (FormattedError F Err) := []
  Extensions : Option (GoMap F) := none

/-- The struct `graphql.Params`; `S` is the type of schemas, `Context` is the
request the context was made for. -/
structure Params (F S : Type) where
  Schema : S
  RequestString : String
  VariableValues : Option (GoMap F)
  OperationName : String
  RootObject : Option (GoMap F) := none
  Context : Request

/-- The struct `graphiqlData` handed to the GraphiQL template. -/
structure graphiqlData where
  GraphiqlVersion : String
  QueryString : String
  VariablesString : String
  OperationName : String
  ResultString : String
  Path : String

/-- The struct `playgroundData` handed to the Playground template. -/
structure playgroundData where
  PlaygroundVersion : String
  Endpoint : String
  SubscriptionEndpoint : String
  SetTitle : Bool
  Path : String

def graphiqlVersion : String := "0.11.11"

def graphcoolPlaygroundVersion : String := "1.5.2"

/-- The collaborators of the handler, whose results this development does not
compute. `Do n params` is the result of `graphql.Do(params)` when `n` calls of
the engine came before it while the request was served. The marshalling
functions return the bytes or the error text. `ParseGraphiQL` and
`ParsePlayground` are the errors of parsing the two page templates (`none` when
they parse); the `Execute` functions give the text a template writes and its
error. `Find` is `staticBox.Find`, `TypeByExtension` is `mime.TypeByExtension`
and `DetectContentType` is `http.DetectContentType` applied to `content[:1024]`
for a content whose capacity allows the slice. -/
structure Env (F S Err : Type) where
  Do : Nat → Params F S → Result F Err
  Marshal : Result F Err → Except String String
  MarshalIndent : Result F Err → String → Except String String
  MarshalIndentVariables : Option (GoMap F) → Except String String
  ParseGraphiQL : Option String
  ExecuteGraphiQL : graphiqlData → String × Option String
  ParsePlayground : Option String
  ExecutePlayground : playgroundData → String × Option String
  Find : String → Content × FindError
  TypeByExtension : String → String
  DetectContentType : Content → String

/-! ## The request context -/

/-- The parts of a `fasthttp.Response` the handler writes: a fresh response has
status 200, the default content type and no body. -/
structure Response where
  statusCode : Nat := 200
  contentType : String := "text/plain; charset=utf-8"
  body : String := ""

/-- The calls a request makes while it is served, recorded in order: calls of
the configured callbacks, of the engine, of the three response functions of
the package, of the templates, of the asset store and the logger, and the
writes to the response body. -/
inductive Event (F S Err : Type) where
  | rootObjectFn
  | Do (params : Params F S)
  | formatErrorFn (err : Err)
  | renderGraphiQL (params : Params F S)
  | renderPlayground
  | serveStatic
  | ExecuteGraphiQL (d : graphiqlData)
  | ExecutePlayground (d : playgroundData)
  | Find (path : String)
  | Printf (msg : String)
  | Write (p : String)
  | resultCallbackFn (params : Params F S) (result : Result F Err) (responseBody : Option String)

def Event.isDo {F S Err : Type} : Event F S Err → Bool
  | .Do _ => true
  | _ => false

def Event.isFormatErrorFn {F S Err : Type} : Event F S Err → Bool
  | .formatErrorFn _ => true
  | _ => false

def Event.isRenderGraphiQL {F S Err : Type} : Event F S Err → Bool
  | .renderGraphiQL _ => true
  | _ => false

def Event.isRenderPlayground {F S Err : Type} : Event F S Err → Bool
  | .renderPlayground => true
  | _ => false

def Event.isServeStatic {F S Err : Type} : Event F S Err → Bool
  | .serveStatic => true
  | _ => false

def Event.isResultCallbackFn {F S Err : Type} : Event F S Err → Bool
  | .resultCallbackFn _ _ _ => true
  | _ => false

/-- A `fasthttp.RequestCtx` while a request is served: the request, the
response so far, the calls made so far and whether the goroutine panicked. -/
structure RequestCtx (F S Err : Type) where
  Request : Request
  Response : Response := {}
  events : List (Event F S Err) := []
  panicked : Bool := false

namespace RequestCtx

variable {F S Err : Type}

/-- Records a call. -/
def log (ctx : RequestCtx F S Err) (e : Event F S Err) : RequestCtx F S Err :=
  { ctx with events := ctx.events ++ [e] }

/-- `Response.Header.SetContentType`. -/
def SetContentType (ctx : RequestCtx F S Err) (contentType : String) : RequestCtx F S Err :=
  { ctx with Response := { ctx.Response with contentType := contentType } }

/-- `RequestCtx.SetStatusCode` and `Response.Header.SetStatusCode`. -/
def SetStatusCode (ctx : RequestCtx F S Err) (statusCode : Nat) : RequestCtx F S Err :=
  { ctx with Response := { ctx.Response with statusCode := statusCode } }

/-- `RequestCtx.Write`: appends to the response body. -/
def Write (ctx : RequestCtx F S Err) (p : String) : RequestCtx F S Err :=
  { ctx with
    Response := { ctx.Response with body := ctx.Response.body ++ p }
    events := ctx.events ++ [Event.Write p] }

/-- `Response.SetBody`. -/
def SetBody (ctx : RequestCtx F S Err) (body : String) : RequestCtx F S Err :=
  { ctx with Response := { ctx.Response with body := body } }

/-- `RequestCtx.Error`: resets the response, then sets the status code, the
default content type and the message as body. -/
def Error (ctx : RequestCtx F S Err) (msg : String) (statusCode : Nat) : RequestCtx F S Err :=
  { ctx with Response := { statusCode := statusCode, body := msg } }

/-- The number of engine calls made so far. -/
def doCalls (ctx : RequestCtx F S Err) : Nat := (ctx.events.filter Event.isDo).length

end RequestCtx

def StatusInternalServerError : Nat := 500

def StatusNotFound : Nat := 404

def StatusOK : Nat := 200

/-! ## The handler (`handler.go`, `graphiql.go`, `graphcoolPlayground.go`) -/

/-- The function `renderGraphiQL`. -/
def renderGraphiQL {F S Err : Type} (E : Env F S Err) (reqCtx : RequestCtx F S Err)
    (params : Params F S) : RequestCtx F S Err :=
  match E.ParseGraphiQL with
  | some err => reqCtx.Error err StatusInternalServerError
  | none =>
    match E.MarshalIndentVariables params.VariableValues with
    | .error err => reqCtx.Error err StatusInternalServerError
    | .ok vars =>
      let varsString := if vars = "null" then "" else vars
      let step : RequestCtx F S Err × Option String :=
        if params.RequestString = "" then (reqCtx, some "")
        else
          match E.MarshalIndent (E.Do reqCtx.doCalls params) "  " with
          | .error err => ((reqCtx.log (Event.Do params)).Error err StatusInternalServerError, none)
          | .ok result => (reqCtx.log (Event.Do params), some result)
      match step.2 with
      | none => step.1
      | some resString =>
        let reqCtx := step.1.SetContentType "text/html; charset=utf-8"
        let d : graphiqlData :=
          { GraphiqlVersion := graphiqlVersion
            QueryString := params.RequestString
            ResultString := resString
            VariablesString := varsString
            OperationName := params.OperationName
            Path := strings.TrimSuffix reqCtx.Request.path "/" }
        let reqCtx := (reqCtx.log (Event.ExecuteGraphiQL d)).Write (E.ExecuteGraphiQL d).1
        match (E.ExecuteGraphiQL d).2 with
        | some err => reqCtx.Error err StatusInternalServerError
        | none => reqCtx

/-- The function `renderPlayground`. -/
def renderPlayground {F S Err : Type} (E : Env F S Err) (reqCtx : RequestCtx F S Err) :
    RequestCtx F S Err :=
  match E.ParsePlayground with
  | some err => reqCtx.Error err StatusInternalServerError
  | none =>
    let reqCtx := reqCtx.SetContentType "text/html; charset=utf-8"
    let d : playgroundData :=
      { PlaygroundVersion := graphcoolPlaygroundVersion
        Endpoint := reqCtx.Request.path
        SubscriptionEndpoint := "ws://" ++ reqCtx.Request.host ++ "/subscriptions"
        SetTitle := true
        Path := strings.TrimPrefix reqCtx.Request.path "/" }
    let reqCtx := (reqCtx.log (Event.ExecutePlayground d)).Write (E.ExecutePlayground d).1
    match (E.ExecutePlayground d).2 with
    | some err => reqCtx.Error err StatusInternalServerError
    | none => reqCtx

/-- The function `serveStatic`; a slice expression out of range sets `panicked`. -/
def serveStatic {F S Err : Type} (E : Env F S Err) (ctx : RequestCtx F S Err) :
    RequestCtx F S Err :=
  let path := ctx.Request.path
  match sliceFrom path (strings.Index path "/static/" + 8) with
  | none => { ctx with panicked := true }
  | some path =>
    let found := E.Find path
    let content := found.1
    let ctx := ctx.log (Event.Find path)
    match found.2 with
    | .notExist =>
      (ctx.log (Event.Printf (path ++ " - 404 bot found"))).SetStatusCode StatusNotFound
    | err =>
      let ctx := match err with
        | .other msg => ctx.log (Event.Printf ("err " ++ msg))
        | _ => ctx
      let contentType := E.TypeByExtension (filepath.Ext path)
      if contentType = "" then
        if 1024 ≤ content.cap then
          (ctx.SetContentType (E.DetectContentType content)).SetBody content.bytes
        else { ctx with panicked := true }
      else (ctx.SetContentType contentType).SetBody content.bytes

set_option linter.dupNamespace false in
/-- The struct `Handler`; `CB` is the type of result callbacks. -/
structure Handler (F S Err CB : Type) where
  Schema : Option S
  pretty : Bool
  graphiql : Bool
  playground : Bool
  rootObjectFn : Option (Request → Option (GoMap F))
  resultCallbackFn : Option CB
  formatErrorFn : Option (Err → FormattedError F Err)

/-- What serving a request leaves behind: the request context at the end and
the final values of the locals `params` and `result`. -/
structure Outcome (F S Err : Type) where
  reqCtx : RequestCtx F S Err
  params : Params F S
  result : Result F Err

/-- The method `Handler.ServeHTTP`; `none` is a panic before the engine is
called (the dereference of a nil `h.Schema`). A panic in `serveStatic` is
recorded in the request context. -/
def ServeHTTP {F S Err CB : Type} (L : Runtime F) (E : Env F S Err) (h : Handler F S Err CB)
    (reqCtx : RequestCtx F S Err) : Option (Outcome F S Err) :=
  match NewRequestOptions L reqCtx.Request with
  | none => none
  | some opts =>
    match h.Schema with
    | none => none
    | some schema =>
      let params : Params F S :=
        { Schema := schema
          RequestString := opts.Query
          VariableValues := opts.Variables
          OperationName := opts.OperationName
          Context := reqCtx.Request }
      let params : Params F S :=
        match h.rootObjectFn with
        | some rootObjectFn => { params with RootObject := rootObjectFn reqCtx.Request }
        | none => params
      let reqCtx :=
        match h.rootObjectFn with
        | some _ => reqCtx.log Event.rootObjectFn
        | none => reqCtx
      let result := E.Do reqCtx.doCalls params
      let reqCtx := reqCtx.log (Event.Do params)
      let reshape : Bool := h.formatErrorFn.isSome && result.Errors.length > 0
      let reqCtx :=
        if reshape then
          { reqCtx with
            events := reqCtx.events ++
              result.Errors.map fun formattedError => Event.formatErrorFn formattedError.OriginalError }
        else reqCtx
      let result : Result F Err :=
        match h.formatErrorFn with
        | some formatErrorFn =>
          if result.Errors.length > 0 then
            { result with
              Errors := result.Errors.map fun formattedError =>
                formatErrorFn formattedError.OriginalError }
          else result
        | none => result
      let acceptHeader := reqCtx.Request.accept
      let raw := (reqCtx.Request.QueryArgs L).Has "raw"
      if h.graphiql && (!raw && !strings.Contains acceptHeader "application/json" &&
          strings.Contains acceptHeader "text/html") then
        some { reqCtx := renderGraphiQL E (reqCtx.log (Event.renderGraphiQL params)) params
               params := params, result := result }
      else if h.playground && (!raw && !strings.Contains acceptHeader "application/json" &&
          strings.Contains acceptHeader "text/html") then
        some { reqCtx := renderPlayground E (reqCtx.log Event.renderPlayground)
               params := params, result := result }
      else if reqCtx.Request.Method == "GET" && strings.Contains reqCtx.Request.path "/static/" then
        some { reqCtx := serveStatic E (reqCtx.log Event.serveStatic)
               params := params, result := result }
      else
        let reqCtx := reqCtx.SetContentType "application/json; charset=utf-8"
        let buff : Option String :=
          if h.pretty then (E.MarshalIndent result "\t").toOption
          else (E.Marshal result).toOption
        let reqCtx := (reqCtx.SetStatusCode StatusOK).Write (bytesToString buff)
        let reqCtx :=
          match h.resultCallbackFn with
          | some _ => reqCtx.log (Event.resultCallbackFn params result buff)
          | none => reqCtx
        some { reqCtx := reqCtx, params := params, result := result }

/-- The response mode of a served request, read off the calls it made. -/
inductive Mode where
  | GraphiQL
  | Playground
  | StaticAsset
  | JSONResult
  deriving DecidableEq

/-- The response mode: which of `renderGraphiQL`, `renderPlayground` and
`serveStatic` was called, and `JSONResult` when none was. -/
def RequestCtx.mode {F S Err : Type} (ctx : RequestCtx F S Err) : Mode :=
  if ctx.events.any Event.isRenderGraphiQL then Mode.GraphiQL
  else if ctx.events.any Event.isRenderPlayground then Mode.Playground
  else if ctx.events.any Event.isServeStatic then Mode.StaticAsset
  else Mode.JSONResult

/-- The condition of both interactive branches of `ServeHTTP`: no `raw`
parameter, and an Accept header that mentions `text/html` but not
`application/json`. -/
def uiRequested {F : Type} (L : Runtime F) (r : Request) : Bool :=
  !(r.QueryArgs L).Has "raw" && !strings.Contains r.accept "application/json" &&
    strings.Contains r.accept "text/html"

/-- The errors `formatErrorFn` was called with, in the order of the calls. -/
def formatErrorCalls {F S Err : Type} (events : List (Event F S Err)) : List Err :=
  events.filterMap fun e =>
    match e with
    | .formatErrorFn err => some err
    | _ => none

/-- The calls made inside `renderGraphiQL`, `renderPlayground` and
`serveStatic`: of the engine, the templates, the asset store and the logger,
and writes to the body. -/
def Event.isInner {F S Err : Type} : Event F S Err → Bool
  | .Do _ => true
  | .ExecuteGraphiQL _ => true
  | .ExecutePlayground _ => true
  | .Find _ => true
  | .Printf _ => true
  | .Write _ => true
  | _ => false

/-- The value of the local `params` of `ServeHTTP` for a schema and resolved
request options. -/
def paramsOf {F S Err CB : Type} (h : Handler F S Err CB) (schema : S) (opts : RequestOptions F)
    (r : Request) : Params F S :=
  { Schema := schema
    RequestString := opts.Query
    VariableValues := opts.Variables
    OperationName := opts.OperationName
    RootObject := match h.rootObjectFn with
      | some rootObjectFn => rootObjectFn r
      | none => none
    Context := r }

/-- The value of the local `result` of `ServeHTTP` after the errors of the
engine's result were passed through `formatErrorFn`. -/
def reshapedResult {F S Err CB : Type} (h : Handler F S Err CB) (result : Result F Err) :
    Result F Err :=
  match h.formatErrorFn with
  | some formatErrorFn =>
    if result.Errors.length > 0 then
      { result with Errors := result.Errors.map fun e => formatErrorFn e.OriginalError }
    else result
  | none => result

/-- The calls `ServeHTTP` makes on a fresh request context before it chooses a
response: `rootObjectFn` when configured, the engine, and `formatErrorFn` once
for each error when configured. -/
def callsBeforeRouting {F S Err CB : Type} (h : Handler F S Err CB) (params : Params F S)
    (result : Result F Err) : List (Event F S Err) :=
  (match h.rootObjectFn with
    | some _ => [Event.rootObjectFn]
    | none => []) ++ [Event.Do params] ++
  (if h.formatErrorFn.isSome && result.Errors.length > 0 then
    result.Errors.map fun e => Event.formatErrorFn e.OriginalError
  else [])

/-- The struct `Config`. -/
structure Config (F S Err CB : Type) where
  Schema : Option S := none
  Pretty : Bool := false
  GraphiQL : Bool := false
  Playground : Bool := false
  RootObjectFn : Option (Request → Option (GoMap F)) := none
  ResultCallbackFn : Option CB := none
  FormatErrorFn : Option (Err → FormattedError F Err) := none

/-- The function `NewConfig`. -/
def NewConfig {F S Err CB : Type} : Config F S Err CB :=
  { Schema := none, Pretty := true, GraphiQL := true, Playground := false }

/-- The function `New`; the argument `none` is the nil pointer and the result
`Except.error msg` is `panic(msg)`. -/
def New {F S Err CB : Type} (p : Option (Config F S Err CB)) : Except String (Handler F S Err CB) :=
  let p := match p with
    | none => NewConfig
    | some p => p
  match p.Schema with
  | none => Except.error "undefined GraphQL schema"
  | some _ =>
    Except.ok
      { Schema := p.Schema
        pretty := p.Pretty
        graphiql := p.GraphiQL
        playground := p.Playground
        rootObjectFn := p.RootObjectFn
        resultCallbackFn := p.ResultCallbackFn
        formatErrorFn := p.FormatErrorFn }

/-! ## Concrete collaborators -/

/-- An engine for evaluating examples: the query `bad` yields two errors, any
other query yields itself as data. The result is written as its error messages,
one after the other, behind the indent. -/
def plainEnv : Env String String String where
  Do := fun _ params =>
    if params.RequestString = "bad" then
      { Errors := [{ Message := "m1", originalError := "e1" },
                   { Message := "m2", originalError := "e2" }] }
    else { Data := GoValue.string params.RequestString }
  Marshal := fun r => Except.ok (String.join (r.Errors.map fun e => e.Message))
  MarshalIndent := fun r indent => Except.ok (indent ++ String.join (r.Errors.map fun e => e.Message))
  MarshalIndentVariables := fun m => Except.ok (if m.isNone then "null" else "vars")
  ParseGraphiQL := none
  ExecuteGraphiQL := fun d => ("<!DOCTYPE html>" ++ d.ResultString, none)
  ParsePlayground := none
  ExecutePlayground := fun d => ("<!DOCTYPE html>" ++ d.Endpoint, none)
  Find := fun path =>
    if path = "app.js" then ({ bytes := "let a = 1", spare := 0 }, FindError.nil)
    else ({}, FindError.notExist)
  TypeByExtension := fun ext => if ext = ".js" then "text/javascript; charset=utf-8" else ""
  DetectContentType := fun _ => "application/octet-stream"

/-- A handler for evaluating examples. -/
def plainHandler (graphiql playground : Bool) : Handler String String String String :=
  { Schema := some "schema", pretty := false, graphiql := graphiql, playground := playground
    rootObjectFn := none, resultCallbackFn := some "callback"
    formatErrorFn := some fun err => { Message := "formatted " ++ err, originalError := err } }

/-- The collaborators of `plainEnv` with another asset store: it holds the
three-byte file `LICENSE`, whose slice has no spare capacity, and answers any
other path with a fault and no content. -/
def shortAssetEnv : Env String String String :=
  { plainEnv with
    Find := fun path =>
      if path = "LICENSE" then ({ bytes := "MIT", spare := 0 }, FindError.nil)
      else ({}, FindError.other "read fault") }

/-- The page data the GraphiQL template was executed with, in the order of the
calls. -/
def executedGraphiQL {F S Err : Type} (events : List (Event F S Err)) : List graphiqlData :=
  events.filterMap fun e =>
    match e with
    | .ExecuteGraphiQL d => some d
    | _ => none

end Handler

/-! ## Properties of the resolver -/

namespace Handler

theorem utf8ByteSize_go_eq_zero (cs : List Char) :
    String.utf8ByteSize.go cs = 0 ↔ cs = [] := by
  cases cs with
  | nil => simp [String.utf8ByteSize.go]
  | cons c cs =>
    have := Char.utf8Size_pos c
    simp [String.utf8ByteSize.go]
    omega

theorem utf8ByteSize_eq_zero (s : String) : s.utf8ByteSize = 0 ↔ s = "" := by
  cases s with
  | mk cs =>
    show String.utf8ByteSize.go cs = 0 ↔ _
    rw [utf8ByteSize_go_eq_zero]
    constructor
    · intro h; subst h; rfl
    · intro h; exact congrArg String.data h

theorem len_pos_iff (b : Option String) : len b > 0 ↔ ∃ q, b = some q ∧ q ≠ "" := by
  unfold len
  cases b with
  | none => simp [Option.getD]; rfl
  | some q =>
    simp only [Option.getD, Option.some.injEq, exists_eq_left', gt_iff_lt, Nat.pos_iff_ne_zero, ne_eq]
    rw [utf8ByteSize_eq_zero]

/-- What `getFromForm` returns when the first `query` argument is not empty. -/
theorem getFromForm_of_query {F : Type} (L : Runtime F) (args : Args) (q : String)
    (h : args.Peek "query" = some q) (hq : q ≠ "") :
    getFromForm L args = some
      { Query := q
        Variables :=
          (json.UnmarshalMap L.ParseFloat (bytesToString (args.Peek "variables")) (some [])).1
        OperationName := bytesToString (args.Peek "operationName") } := by
  have hpos : len (args.Peek "query") > 0 := (len_pos_iff _).2 ⟨q, h, hq⟩
  unfold getFromForm
  simp only [hpos, if_true]
  rw [h]
  rfl

/-- `getFromForm` returns nil when there is no `query` argument or the first one
is empty. -/
theorem getFromForm_of_no_query {F : Type} (L : Runtime F) (args : Args)
    (h : ∀ q, args.Peek "query" = some q → q = "") :
    getFromForm L args = none := by
  have hpos : ¬ len (args.Peek "query") > 0 := by
    rw [len_pos_iff]
    rintro ⟨q, hq, hne⟩
    exact hne (h q hq)
  simp only [getFromForm, hpos, if_false]

/-- With no `query` argument at all there is no non-empty one. -/
theorem no_query_of_peek_none (args : Args) (h : args.Peek "query" = none) :
    ∀ q, args.Peek "query" = some q → q = "" := by
  intro q hq
  rw [h] at hq
  exact Option.noConfusion hq

/-- `getFromForm` returns nil exactly when `len(query) > 0` fails. -/
theorem getFromForm_eq_none_iff {F : Type} (L : Runtime F) (args : Args) :
    getFromForm L args = none ↔ ∀ q, args.Peek "query" = some q → q = "" := by
  constructor
  · intro h q hq
    by_contra hne
    rw [getFromForm_of_query L args q hq hne] at h
    exact Option.noConfusion h
  · exact getFromForm_of_no_query L args

theorem splitChars_ne_nil (sep : Char) (cs : List Char) : strings.splitChars sep cs ≠ [] := by
  cases cs with
  | nil => simp [strings.splitChars]
  | cons c cs =>
    unfold strings.splitChars
    split
    · simp
    · split <;> simp

/-- The first piece of a text that starts with `t`, free of the separator, and
goes on with a separator, is `t`. -/
theorem splitChars_append_sep (sep : Char) (t rest : List Char) (ht : sep ∉ t) :
    ∃ ts, strings.splitChars sep (t ++ sep :: rest) = t :: ts := by
  induction t with
  | nil => exact ⟨strings.splitChars sep rest, by simp [strings.splitChars]⟩
  | cons c t ih =>
    have hc : c ≠ sep := fun h => ht (by simp [h])
    have ht2 : sep ∉ t := fun h => ht (by simp [h])
    obtain ⟨ts, hts⟩ := ih ht2
    refine ⟨ts, ?_⟩
    show strings.splitChars sep (c :: (t ++ sep :: rest)) = _
    unfold strings.splitChars
    rw [if_neg hc, hts]

/-- A text free of the separator is its own single piece. -/
theorem splitChars_of_not_mem (sep : Char) (t : List Char) (ht : sep ∉ t) :
    strings.splitChars sep t = [t] := by
  induction t with
  | nil => simp [strings.splitChars]
  | cons c t ih =>
    have hc : c ≠ sep := fun h => ht (by simp [h])
    have ht2 : sep ∉ t := fun h => ht (by simp [h])
    unfold strings.splitChars
    rw [if_neg hc, ih ht2]

/-- The first piece of a text is a prefix of it. -/
theorem splitChars_head_prefix (sep : Char) (cs t : List Char) (ts : List (List Char))
    (h : strings.splitChars sep cs = t :: ts) : t <+: cs := by
  induction cs generalizing t ts with
  | nil =>
    simp [strings.splitChars] at h
    simp [h.1]
  | cons c cs ih =>
    unfold strings.splitChars at h
    split at h
    · rw [← (List.cons.inj h).1]
      exact List.nil_prefix
    · split at h
      · next hnil => exact absurd hnil (splitChars_ne_nil sep cs)
      · next t1 ts1 heq =>
        simp at h
        rw [← h.1]
        exact (List.prefix_cons_inj c).2 (ih t1 ts1 heq)

/-- Indexing the tokens of a header at `0` always succeeds. -/
theorem Split_zero_isSome (s : String) (sep : Char) : ((strings.Split s sep)[0]?).isSome = true := by
  unfold strings.Split
  cases h : strings.splitChars sep s.toList with
  | nil => exact absurd h (splitChars_ne_nil sep _)
  | cons t ts => simp

/-- The token of a header `t;rest`, for `t` free of `;`, is `t`. -/
theorem Split_zero_append (t rest : String) (sep : Char) (ht : sep ∉ t.toList) :
    (strings.Split (t ++ String.singleton sep ++ rest) sep)[0]? = some t := by
  unfold strings.Split
  have hl : (t ++ String.singleton sep ++ rest).toList = t.toList ++ sep :: rest.toList := by
    simp [String.toList, String.data_append, String.singleton]
  obtain ⟨ts, hts⟩ := splitChars_append_sep sep t.toList rest.toList ht
  rw [hl, hts]
  simp [String.toList]

/-- The token of a header `t` free of `;` is `t`. -/
theorem Split_zero_self (t : String) (sep : Char) (ht : sep ∉ t.toList) :
    (strings.Split t sep)[0]? = some t := by
  unfold strings.Split
  rw [splitChars_of_not_mem sep t.toList ht]
  simp [String.toList]

/-- The header starts with its token. -/
theorem Split_zero_prefix (s tok : String) (sep : Char)
    (h : (strings.Split s sep)[0]? = some tok) : tok.toList.isPrefixOf s.toList = true := by
  unfold strings.Split at h
  cases hs : strings.splitChars sep s.toList with
  | nil => exact absurd hs (splitChars_ne_nil sep _)
  | cons t ts =>
    rw [hs] at h
    simp at h
    subst h
    have := splitChars_head_prefix sep s.toList t ts hs
    simpa [List.isPrefixOf_iff_prefix] using this

/-- The token of a header that is `t` alone, or `t` followed by `;` and more. -/
theorem Split_zero_of_header (ct t : String) (ht : ';' ∉ t.toList)
    (hct : ct = t ∨ ∃ rest, ct = t ++ ";" ++ rest) :
    (strings.Split ct ';')[0]? = some t := by
  rcases hct with hct | ⟨rest, hct⟩
  · rw [hct]
    exact Split_zero_self t ';' ht
  · rw [hct]
    exact Split_zero_append t rest ';' ht

/-- In the form branch `PostArgs` is the decoded body. -/
theorem PostArgs_of_form_token {F : Type} (L : Runtime F) (r : Request) (b : String)
    (hb : r.body = some b)
    (htok : (strings.Split r.contentType ';')[0]? = some ContentTypeFormURLEncoded) :
    r.PostArgs L = L.ParseBytes b := by
  have hpre := Split_zero_prefix r.contentType ContentTypeFormURLEncoded ';' htok
  unfold Request.PostArgs
  rw [hb]
  have hpre2 : "application/x-www-form-urlencoded".toList.isPrefixOf r.contentType.toList = true := hpre
  rw [if_pos hpre2]
  rfl

/-- The steps of `NewRequestOptions` before the `switch`: with no usable `query`
in the query string, a POST request with a body is dispatched on its token. -/
theorem NewRequestOptions_switch {F : Type} (L : Runtime F) (r : Request) (b tok : String)
    (hq : getFromForm L (r.QueryArgs L) = none) (hpost : r.IsPost = true)
    (hb : r.body = some b) (htok : (strings.Split r.contentType ';')[0]? = some tok) :
    NewRequestOptions L r =
      if tok = ContentTypeGraphQL then some { Query := b }
      else if tok = ContentTypeFormURLEncoded then
        match getFromForm L (r.PostArgs L) with
        | some reqOpt => some reqOpt
        | none => some {}
      else
        if (json.UnmarshalRequestOptions L.ParseFloat b {}).2 then
          some { (json.UnmarshalRequestOptions L.ParseFloat b {}).1 with
            Variables :=
              (json.UnmarshalMap L.ParseFloat (json.UnmarshalCompatibility b {}).1.Variables
                (json.UnmarshalRequestOptions L.ParseFloat b {}).1.Variables).1 }
        else some (json.UnmarshalRequestOptions L.ParseFloat b {}).1 := by
  simp only [NewRequestOptions, hq, hpost, hb, htok]
  rfl

/-- C1. A `query` query-string parameter with a non-empty value (the one
`Args.Peek` returns) decides the result: `Query` is that value and
`OperationName` is the `operationName` parameter, or empty when it is absent; the
result is the same for every method, Content-Type header and body. -/
theorem query_string_takes_precedence {F : Type} (L : Runtime F) (r : Request) (q : String)
    (h : (r.QueryArgs L).Peek "query" = some q) (hq : q ≠ "") :
    (∃ o, NewRequestOptions L r = some o ∧ o.Query = q ∧
        o.OperationName = ((r.QueryArgs L).Peek "operationName").getD "") ∧
      ∀ (m ct : String) (b : Option String),
        NewRequestOptions L { r with method := m, contentType := ct, body := b } =
          NewRequestOptions L r := by
  have hform := getFromForm_of_query L (r.QueryArgs L) q h hq
  have hres : NewRequestOptions L r = getFromForm L (r.QueryArgs L) := by
    simp only [NewRequestOptions, hform]
  refine ⟨⟨_, hres.trans hform, rfl, rfl⟩, ?_⟩
  · intro m ct b
    have hform2 : getFromForm L (Request.QueryArgs L { r with method := m, contentType := ct, body := b })
        = getFromForm L (r.QueryArgs L) := rfl
    simp only [NewRequestOptions, hform2, hform]

theorem query_string_takes_precedence_witness :
    (∃ o, NewRequestOptions plainRuntime
          { method := "POST", queryString := "query=query RebelsShipsQuery { rebels { name } }" } = some o ∧
        o.Query = "query RebelsShipsQuery { rebels { name } }" ∧
        o.OperationName = ((Request.QueryArgs plainRuntime
          { method := "POST", queryString := "query=query RebelsShipsQuery { rebels { name } }" }).Peek
            "operationName").getD "") ∧
      ∀ (m ct : String) (b : Option String),
        NewRequestOptions plainRuntime
          { ({ method := "POST", queryString := "query=query RebelsShipsQuery { rebels { name } }" } : Request)
              with method := m, contentType := ct, body := b } =
          NewRequestOptions plainRuntime
            { method := "POST", queryString := "query=query RebelsShipsQuery { rebels { name } }" } :=
  query_string_takes_precedence plainRuntime
    { method := "POST", queryString := "query=query RebelsShipsQuery { rebels { name } }" }
    "query RebelsShipsQuery { rebels { name } }" (by rfl) (by decide)

theorem UnmarshalMap_null {F : Type} (parseFloat : String → Option F) (m : Option (GoMap F)) :
    json.UnmarshalMap parseFloat "null" m = (none, false) := by
  have hp : json.parse "null" = some json.Value.null := by rfl
  simp only [json.UnmarshalMap, hp, json.storeMap]

/-- A text that is no JSON object and not `null` leaves the map as it was. -/
theorem UnmarshalMap_of_not_object {F : Type} (parseFloat : String → Option F) (data : String)
    (m : Option (GoMap F))
    (h : ∀ x, json.parse data = some x → x.isNull = false ∧ x.isObject = false) :
    json.UnmarshalMap parseFloat data m = (m, true) := by
  unfold json.UnmarshalMap
  cases hp : json.parse data with
  | none => rfl
  | some x =>
    have hx := h x hp
    cases x <;> simp_all [json.storeMap, json.Value.isNull, json.Value.isObject]

/-- C2. On the code the invariant fails for `variables=null`: with a non-empty
`query` in the query string and the JSON text `null` as the `variables`
parameter, the `Variables` of the result is the nil map, not an empty mapping. -/
theorem variables_null_resets_map_to_nil {F : Type} (L : Runtime F) (r : Request) (q : String)
    (h : (r.QueryArgs L).Peek "query" = some q) (hq : q ≠ "")
    (hv : (r.QueryArgs L).Peek "variables" = some "null") :
    NewRequestOptions L r = some
      { Query := q
        Variables := none
        OperationName := ((r.QueryArgs L).Peek "operationName").getD "" } := by
  have hform := getFromForm_of_query L (r.QueryArgs L) q h hq
  rw [hv] at hform
  have hnull : (json.UnmarshalMap L.ParseFloat (bytesToString (some "null")) (some [])).1 = none := by
    show (json.UnmarshalMap L.ParseFloat "null" (some [])).1 = none
    rw [UnmarshalMap_null]
  rw [hnull] at hform
  simp only [NewRequestOptions, hform]
  rfl

theorem variables_null_resets_map_to_nil_witness :
    NewRequestOptions plainRuntime { method := "GET", queryString := "query={a}&variables=null" } =
      some { Query := "{a}", Variables := none, OperationName := "" } :=
  variables_null_resets_map_to_nil plainRuntime
    { method := "GET", queryString := "query={a}&variables=null" } "{a}" (by rfl) (by decide) (by rfl)

/-- C3. When a non-empty `query` comes from the query string, or from the form
fields of a URL-encoded POST body, and the `variables` parameter is missing or
is no JSON object (invalid JSON, or an array, string, number or boolean), the
result has the empty mapping as `Variables`, and its `Query` and `OperationName`
are the `query` and `operationName` parameters. -/
theorem variables_parse_failure_gives_empty_map {F : Type} (L : Runtime F) (r : Request)
    (args : Args) (q : String)
    (hsrc : r.QueryArgs L = args ∨
      ((∀ q1, (r.QueryArgs L).Peek "query" = some q1 → q1 = "") ∧ r.Method = "POST" ∧
        (r.contentType = "application/x-www-form-urlencoded" ∨
          ∃ rest, r.contentType = "application/x-www-form-urlencoded" ++ ";" ++ rest) ∧
        ∃ b, r.body = some b ∧ L.ParseBytes b = args))
    (h : args.Peek "query" = some q) (hq : q ≠ "")
    (hv : args.Peek "variables" = none ∨ ∃ v, args.Peek "variables" = some v ∧
      ∀ x, json.parse v = some x → x.isNull = false ∧ x.isObject = false) :
    NewRequestOptions L r = some
      { Query := q
        Variables := some []
        OperationName := (args.Peek "operationName").getD "" } := by
  have hun : (json.UnmarshalMap L.ParseFloat (bytesToString (args.Peek "variables")) (some [])).1
      = some [] := by
    rcases hv with hv | ⟨v, hv, hx⟩
    · rw [hv]
      rfl
    · rw [hv]
      show (json.UnmarshalMap L.ParseFloat v (some [])).1 = some []
      rw [UnmarshalMap_of_not_object L.ParseFloat _ _ hx]
  have hform := getFromForm_of_query L args q h hq
  rw [hun] at hform
  rcases hsrc with hsrc | ⟨hnq, hpost, hct, b, hb2, hpa⟩
  · subst hsrc
    simp only [NewRequestOptions, hform]
    rfl
  · have hq0 := getFromForm_of_no_query L (r.QueryArgs L) hnq
    have hpost2 : r.IsPost = true := by simp [Request.IsPost, hpost]
    have htok : (strings.Split r.contentType ';')[0]? = some ContentTypeFormURLEncoded :=
      Split_zero_of_header r.contentType "application/x-www-form-urlencoded" (by decide) hct
    rw [NewRequestOptions_switch L r b _ hq0 hpost2 hb2 htok,
      PostArgs_of_form_token L r b hb2 htok, hpa, hform]
    simp only [ContentTypeFormURLEncoded, ContentTypeGraphQL]
    rfl

theorem variables_parse_failure_gives_empty_map_witness :
    NewRequestOptions plainRuntime
        { method := "POST", contentType := "application/x-www-form-urlencoded",
          body := some "query={a}&variables=[1]&operationName=Op" } =
      some { Query := "{a}", Variables := some [], OperationName := "Op" } :=
  variables_parse_failure_gives_empty_map plainRuntime
    { method := "POST", contentType := "application/x-www-form-urlencoded",
      body := some "query={a}&variables=[1]&operationName=Op" }
    (parseBytesPlain "query={a}&variables=[1]&operationName=Op") "{a}"
    (Or.inr ⟨no_query_of_peek_none _ (by rfl), by rfl, Or.inl (by rfl), _, by rfl, by rfl⟩)
    (by rfl) (by decide)
    (Or.inr ⟨"[1]", by rfl, by
      intro x hx
      have hp : json.parse "[1]" = some (json.Value.array [json.Value.number "1"]) := by rfl
      rw [hp] at hx
      cases hx
      exact ⟨rfl, rfl⟩⟩)

/-- C4. A request whose method is not POST and whose query string has no
`query` parameter with a non-empty value resolves to the all-empty request,
whatever its Content-Type header and body are. -/
theorem non_post_without_query_is_empty {F : Type} (L : Runtime F) (r : Request)
    (hq : ∀ q, (r.QueryArgs L).Peek "query" = some q → q = "")
    (hm : r.Method ≠ "POST") :
    NewRequestOptions L r = some { Query := "", Variables := none, OperationName := "" } := by
  have hq0 := getFromForm_of_no_query L (r.QueryArgs L) hq
  have hpost : r.IsPost = false := by simp [Request.IsPost, hm]
  simp only [NewRequestOptions, hq0, hpost]
  rfl

theorem non_post_without_query_is_empty_witness :
    NewRequestOptions plainRuntime
        { method := "GET", contentType := "application/json",
          body := some "\x7b \"query\": \"query RebelsShipsQuery \x7b rebels \x7b name \x7d \x7d\" \x7d" } =
      some { Query := "", Variables := none, OperationName := "" } :=
  non_post_without_query_is_empty plainRuntime
    { method := "GET", contentType := "application/json",
      body := some "\x7b \"query\": \"query RebelsShipsQuery \x7b rebels \x7b name \x7d \x7d\" \x7d" }
    (no_query_of_peek_none _ (by rfl)) (by decide)

/-- C5. A POST request with no non-empty `query` in the query string, a body
`b` and a Content-Type that is `application/graphql`, alone or followed by `;`
and anything, resolves to `Query = b` unchanged, nil `Variables` and an empty
`OperationName`. -/
theorem graphql_body_is_query_verbatim {F : Type} (L : Runtime F) (r : Request) (b : String)
    (hq : ∀ q, (r.QueryArgs L).Peek "query" = some q → q = "")
    (hm : r.Method = "POST") (hb : r.body = some b)
    (hct : r.contentType = "application/graphql" ∨
      ∃ rest, r.contentType = "application/graphql" ++ ";" ++ rest) :
    NewRequestOptions L r = some { Query := b, Variables := none, OperationName := "" } := by
  have hq0 := getFromForm_of_no_query L (r.QueryArgs L) hq
  have hpost : r.IsPost = true := by simp [Request.IsPost, hm]
  have htok : (strings.Split r.contentType ';')[0]? = some ContentTypeGraphQL := by
    rcases hct with hct | ⟨rest, hct⟩
    · rw [hct]
      exact Split_zero_self "application/graphql" ';' (by decide)
    · rw [hct]
      exact Split_zero_append "application/graphql" rest ';' (by decide)
  rw [NewRequestOptions_switch L r b _ hq0 hpost hb htok]
  simp

theorem graphql_body_is_query_verbatim_witness :
    NewRequestOptions plainRuntime
        { method := "POST", contentType := "application/graphql",
          body := some "query RebelsShipsQuery { rebels { name } }" } =
      some { Query := "query RebelsShipsQuery { rebels { name } }", Variables := none,
             OperationName := "" } :=
  graphql_body_is_query_verbatim plainRuntime
    { method := "POST", contentType := "application/graphql",
      body := some "query RebelsShipsQuery { rebels { name } }" }
    "query RebelsShipsQuery { rebels { name } }"
    (no_query_of_peek_none _ (by rfl)) (by rfl) (by rfl) (Or.inl (by rfl))

theorem findField_mem (key name : String)
    (h : json.findField jsonFieldNames key = some name) : name ∈ jsonFieldNames := by
  unfold json.findField at h
  split at h
  · next n hn =>
    cases h
    exact List.mem_of_find?_eq_some hn
  · exact List.mem_of_find?_eq_some h

theorem fieldValues_cons (name k : String) (v : json.Value) (ms : List (String × json.Value)) :
    json.fieldValues name ((k, v) :: ms) =
      if json.findField jsonFieldNames k = some name then v :: json.fieldValues name ms
      else json.fieldValues name ms := by
  unfold json.fieldValues
  by_cases h : json.findField jsonFieldNames k = some name
  · simp [List.filter_cons, h]
  · simp [List.filter_cons, h]

/-- Each field of the decoded struct is the result of storing, in order, the
values of the members that select it. -/
theorem objectRequestOptions_fields {F : Type} (parseFloat : String → Option F)
    (opts : RequestOptions F) (ms : List (String × json.Value)) :
    (json.objectRequestOptions parseFloat opts ms).1 =
      { Query := json.storeStrings opts.Query (json.fieldValues "query" ms)
        Variables := json.storeMaps parseFloat opts.Variables (json.fieldValues "variables" ms)
        OperationName := json.storeStrings opts.OperationName (json.fieldValues "operationName" ms) } := by
  induction ms generalizing opts with
  | nil => rfl
  | cons kv ms ih =>
    obtain ⟨k, v⟩ := kv
    unfold json.objectRequestOptions
    rw [ih]
    simp only [fieldValues_cons]
    cases hf : json.findField jsonFieldNames k with
    | none => simp [json.storeRequestOptionsField, hf]
    | some name =>
      have hmem := findField_mem k name hf
      simp only [jsonFieldNames, List.mem_cons, List.mem_singleton, List.not_mem_nil, or_false] at hmem
      rcases hmem with rfl | rfl | rfl <;>
        simp [json.storeRequestOptionsField, hf, json.storeStrings, json.storeMaps]

/-- The same for the compatibility struct, whose three fields are strings. -/
theorem objectCompatibility_fields (opts : requestOptionsCompatibility)
    (ms : List (String × json.Value)) :
    (json.objectCompatibility opts ms).1 =
      { Query := json.storeStrings opts.Query (json.fieldValues "query" ms)
        Variables := json.storeStrings opts.Variables (json.fieldValues "variables" ms)
        OperationName := json.storeStrings opts.OperationName (json.fieldValues "operationName" ms) } := by
  induction ms generalizing opts with
  | nil => rfl
  | cons kv ms ih =>
    obtain ⟨k, v⟩ := kv
    unfold json.objectCompatibility
    rw [ih]
    simp only [fieldValues_cons]
    cases hf : json.findField jsonFieldNames k with
    | none => simp [json.storeCompatibilityField, hf]
    | some name =>
      have hmem := findField_mem k name hf
      simp only [jsonFieldNames, List.mem_cons, List.mem_singleton, List.not_mem_nil, or_false] at hmem
      rcases hmem with rfl | rfl | rfl <;>
        simp [json.storeCompatibilityField, hf, json.storeStrings]

/-- A JSON string stored into the `variables` map is a type error, which
`Unmarshal` reports whatever else the object holds. -/
theorem objectRequestOptions_error_of_string {F : Type} (parseFloat : String → Option F)
    (opts : RequestOptions F) (ms : List (String × json.Value)) (s : String)
    (h : json.Value.string s ∈ json.fieldValues "variables" ms) :
    (json.objectRequestOptions parseFloat opts ms).2 = true := by
  induction ms generalizing opts with
  | nil => simp [json.fieldValues] at h
  | cons kv ms ih =>
    obtain ⟨k, v⟩ := kv
    unfold json.objectRequestOptions
    rw [fieldValues_cons] at h
    by_cases hf : json.findField jsonFieldNames k = some "variables"
    · rw [if_pos hf] at h
      rcases List.mem_cons.1 h with hv | hrest
      · subst hv
        simp [json.storeRequestOptionsField, hf, json.storeMap]
      · simp [ih _ hrest]
    · rw [if_neg hf] at h
      simp [ih _ h]

theorem UnmarshalMap_empty {F : Type} (parseFloat : String → Option F) (m : Option (GoMap F)) :
    json.UnmarshalMap parseFloat "" m = (m, true) := by
  have hp : json.parse "" = none := by rfl
  simp only [json.UnmarshalMap, hp]

/-- The default branch of the `switch`: reached by a POST request with a body,
no usable `query` in the query string and a token that is neither
`application/graphql` nor `application/x-www-form-urlencoded`. -/
theorem NewRequestOptions_json_branch {F : Type} (L : Runtime F) (r : Request) (b : String)
    (hq : ∀ q, (r.QueryArgs L).Peek "query" = some q → q = "")
    (hm : r.Method = "POST") (hb : r.body = some b)
    (hg : (strings.Split r.contentType ';')[0]? ≠ some ContentTypeGraphQL)
    (hf : (strings.Split r.contentType ';')[0]? ≠ some ContentTypeFormURLEncoded) :
    NewRequestOptions L r =
      if (json.UnmarshalRequestOptions L.ParseFloat b {}).2 then
        some { (json.UnmarshalRequestOptions L.ParseFloat b {}).1 with
          Variables :=
            (json.UnmarshalMap L.ParseFloat (json.UnmarshalCompatibility b {}).1.Variables
              (json.UnmarshalRequestOptions L.ParseFloat b {}).1.Variables).1 }
      else some (json.UnmarshalRequestOptions L.ParseFloat b {}).1 := by
  have hq0 := getFromForm_of_no_query L (r.QueryArgs L) hq
  have hpost : r.IsPost = true := by simp [Request.IsPost, hm]
  obtain ⟨tok, htok⟩ := Option.isSome_iff_exists.1 (Split_zero_isSome r.contentType ';')
  rw [NewRequestOptions_switch L r b tok hq0 hpost hb htok]
  have h1 : tok ≠ ContentTypeGraphQL := fun h => hg (by rw [htok, h])
  have h2 : tok ≠ ContentTypeFormURLEncoded := fun h => hf (by rw [htok, h])
  rw [if_neg h1, if_neg h2]

/-- C6. A POST request with no non-empty `query` in the query string, a token
that is neither `application/graphql` nor `application/x-www-form-urlencoded`
(so `application/json`, any other token, or no Content-Type at all) and a body
that is a JSON object with a string `query`, an object `variables` and a string
`operationName`, each present once or missing, resolves to exactly these three
values: a missing field stays at its empty default, and `Variables` is the Go
map of the `variables` object. -/
theorem json_body_fields_are_returned {F : Type} (L : Runtime F) (r : Request) (b : String)
    (ms : List (String × json.Value)) (q op : Option String)
    (vm : Option (List (String × json.Value)))
    (hq : ∀ q1, (r.QueryArgs L).Peek "query" = some q1 → q1 = "")
    (hm : r.Method = "POST") (hb : r.body = some b)
    (hg : (strings.Split r.contentType ';')[0]? ≠ some ContentTypeGraphQL)
    (hf : (strings.Split r.contentType ';')[0]? ≠ some ContentTypeFormURLEncoded)
    (hp : json.parse b = some (json.Value.object ms))
    (hquery : json.fieldValues "query" ms = (q.map json.Value.string).toList)
    (hvars : json.fieldValues "variables" ms = (vm.map json.Value.object).toList)
    (hop : json.fieldValues "operationName" ms = (op.map json.Value.string).toList) :
    NewRequestOptions L r = some
      { Query := q.getD ""
        Variables := vm.map fun m => (json.objectInto L.ParseFloat [] m).1
        OperationName := op.getD "" } := by
  rw [NewRequestOptions_json_branch L r b hq hm hb hg hf]
  have hfirst : (json.UnmarshalRequestOptions L.ParseFloat b {}).1 =
      { Query := q.getD ""
        Variables := vm.map fun m => (json.objectInto L.ParseFloat [] m).1
        OperationName := op.getD "" } := by
    simp only [json.UnmarshalRequestOptions, hp, objectRequestOptions_fields, hquery, hvars, hop]
    cases q <;> cases vm <;> cases op <;> rfl
  have hcompat : (json.UnmarshalCompatibility b {}).1.Variables = "" := by
    simp only [json.UnmarshalCompatibility, hp, objectCompatibility_fields, hvars]
    cases vm <;> rfl
  rw [hcompat, UnmarshalMap_empty, hfirst]
  split <;> rfl

theorem json_body_fields_are_returned_witness :
    NewRequestOptions plainRuntime
        { method := "POST", contentType := "application/json",
          body := some "\x7b\"query\": \"query Q($a: Int) \x7b f(a: $a) \x7d\", \"variables\": \x7b\"a\": 1, \"b\": [true, null]\x7d, \"operationName\": \"Q\"\x7d" } =
      some { Query := "query Q($a: Int) { f(a: $a) }"
             Variables := (some [("a", json.Value.number "1"),
               ("b", json.Value.array [json.Value.bool true, json.Value.null])]).map
                 fun m => (json.objectInto plainRuntime.ParseFloat [] m).1
             OperationName := "Q" } :=
  json_body_fields_are_returned plainRuntime
    { method := "POST", contentType := "application/json",
      body := some "\x7b\"query\": \"query Q($a: Int) \x7b f(a: $a) \x7d\", \"variables\": \x7b\"a\": 1, \"b\": [true, null]\x7d, \"operationName\": \"Q\"\x7d" }
    "\x7b\"query\": \"query Q($a: Int) \x7b f(a: $a) \x7d\", \"variables\": \x7b\"a\": 1, \"b\": [true, null]\x7d, \"operationName\": \"Q\"\x7d"
    [("query", json.Value.string "query Q($a: Int) { f(a: $a) }"),
     ("variables", json.Value.object [("a", json.Value.number "1"),
       ("b", json.Value.array [json.Value.bool true, json.Value.null])]),
     ("operationName", json.Value.string "Q")]
    (some "query Q($a: Int) { f(a: $a) }") (some "Q")
    (some [("a", json.Value.number "1"),
      ("b", json.Value.array [json.Value.bool true, json.Value.null])])
    (no_query_of_peek_none _ (by rfl)) (by rfl) (by rfl) (by decide) (by decide)
    (by rfl) (by rfl) (by rfl) (by rfl)

/-- C7. In the JSON branch, a body that is a JSON object whose `variables` is a
JSON string `s` that itself encodes a JSON object `sm`, with `query` and
`operationName` strings (each present once or missing), resolves to `Variables`
equal to the Go map of `sm`, and to the `query` and `operationName` of the
body: the compatibility fallback loses no field. -/
theorem variables_as_string_fallback {F : Type} (L : Runtime F) (r : Request) (b s : String)
    (ms sm : List (String × json.Value)) (q op : Option String)
    (hq : ∀ q1, (r.QueryArgs L).Peek "query" = some q1 → q1 = "")
    (hm : r.Method = "POST") (hb : r.body = some b)
    (hg : (strings.Split r.contentType ';')[0]? ≠ some ContentTypeGraphQL)
    (hf : (strings.Split r.contentType ';')[0]? ≠ some ContentTypeFormURLEncoded)
    (hp : json.parse b = some (json.Value.object ms))
    (hquery : json.fieldValues "query" ms = (q.map json.Value.string).toList)
    (hvars : json.fieldValues "variables" ms = [json.Value.string s])
    (hop : json.fieldValues "operationName" ms = (op.map json.Value.string).toList)
    (hs : json.parse s = some (json.Value.object sm)) :
    NewRequestOptions L r = some
      { Query := q.getD ""
        Variables := some (json.objectInto L.ParseFloat [] sm).1
        OperationName := op.getD "" } := by
  rw [NewRequestOptions_json_branch L r b hq hm hb hg hf]
  have hfirst : (json.UnmarshalRequestOptions L.ParseFloat b {}).1 =
      { Query := q.getD "", Variables := none, OperationName := op.getD "" } := by
    simp only [json.UnmarshalRequestOptions, hp, objectRequestOptions_fields, hquery, hvars, hop]
    cases q <;> cases op <;> rfl
  have herr : (json.UnmarshalRequestOptions L.ParseFloat b {}).2 = true := by
    simp only [json.UnmarshalRequestOptions, hp]
    exact objectRequestOptions_error_of_string L.ParseFloat _ ms s (by rw [hvars]; simp)
  have hcompat : (json.UnmarshalCompatibility b {}).1.Variables = s := by
    simp only [json.UnmarshalCompatibility, hp, objectCompatibility_fields, hvars]
    rfl
  have hmap : (json.UnmarshalMap L.ParseFloat s none).1 =
      some (json.objectInto L.ParseFloat [] sm).1 := by
    simp only [json.UnmarshalMap, hs, json.storeMap]
    rfl
  rw [herr, if_pos rfl, hcompat, hfirst]
  simp only [hmap]

theorem variables_as_string_fallback_witness :
    NewRequestOptions plainRuntime
        { method := "POST", contentType := "application/json",
          body := some "\x7b\"query\": \"\x7ba\x7d\", \"variables\": \"\x7b\\\"a\\\":1\x7d\", \"operationName\": \"Q\"\x7d" } =
      some { Query := "{a}"
             Variables := some (json.objectInto plainRuntime.ParseFloat []
               [("a", json.Value.number "1")]).1
             OperationName := "Q" } :=
  variables_as_string_fallback plainRuntime
    { method := "POST", contentType := "application/json",
      body := some "\x7b\"query\": \"\x7ba\x7d\", \"variables\": \"\x7b\\\"a\\\":1\x7d\", \"operationName\": \"Q\"\x7d" }
    "\x7b\"query\": \"\x7ba\x7d\", \"variables\": \"\x7b\\\"a\\\":1\x7d\", \"operationName\": \"Q\"\x7d"
    "\x7b\"a\":1\x7d"
    [("query", json.Value.string "{a}"), ("variables", json.Value.string "\x7b\"a\":1\x7d"),
     ("operationName", json.Value.string "Q")]
    [("a", json.Value.number "1")]
    (some "{a}") (some "Q")
    (no_query_of_peek_none _ (by rfl)) (by rfl) (by rfl) (by decide) (by decide)
    (by rfl) (by rfl) (by rfl) (by rfl) (by rfl)

/-- C8. A POST request with no usable `query` in its query string, Content-Type
`application/x-www-form-urlencoded` (alone or with parameters) and a body that
form-decodes to the arguments `A` resolves to the same request as any request
whose query string decodes to `A`, when `A` has a non-empty `query` value; when
`A` has none, the POST request resolves to the all-empty request. -/
theorem form_body_resolves_like_query_string {F : Type} (L : Runtime F) (r r2 : Request)
    (b : String) (A : Args)
    (hq : ∀ q, (r.QueryArgs L).Peek "query" = some q → q = "")
    (hm : r.Method = "POST") (hb : r.body = some b)
    (hct : r.contentType = "application/x-www-form-urlencoded" ∨
      ∃ rest, r.contentType = "application/x-www-form-urlencoded" ++ ";" ++ rest)
    (hA : L.ParseBytes b = A) (hA2 : L.ParseBytes r2.queryString = A) :
    ((∃ q, A.Peek "query" = some q ∧ q ≠ "") →
        NewRequestOptions L r = NewRequestOptions L r2) ∧
      ((∀ q, A.Peek "query" = some q → q = "") →
        NewRequestOptions L r = some { Query := "", Variables := none, OperationName := "" }) := by
  have hq0 := getFromForm_of_no_query L (r.QueryArgs L) hq
  have hpost : r.IsPost = true := by simp [Request.IsPost, hm]
  have htok : (strings.Split r.contentType ';')[0]? = some ContentTypeFormURLEncoded :=
    Split_zero_of_header r.contentType "application/x-www-form-urlencoded" (by decide) hct
  have hpa : r.PostArgs L = A := (PostArgs_of_form_token L r b hb htok).trans hA
  have hsw := NewRequestOptions_switch L r b _ hq0 hpost hb htok
  have hne : ContentTypeFormURLEncoded ≠ ContentTypeGraphQL := by decide
  rw [if_neg hne, if_pos rfl, hpa] at hsw
  constructor
  · rintro ⟨q, hAq, hne2⟩
    have hform := getFromForm_of_query L A q hAq hne2
    have hr2 : NewRequestOptions L r2 = getFromForm L A := by
      have hqa : r2.QueryArgs L = A := hA2
      simp only [NewRequestOptions, hqa, hform]
    rw [hsw, hr2, hform]
  · intro hnone
    rw [hsw, getFromForm_of_no_query L A hnone]

theorem form_body_resolves_like_query_string_witness :
    ((∃ q, (parseBytesPlain "query=\x7ba\x7d&variables=\x7b\"a\":1\x7d&operationName=Q").Peek "query" = some q ∧
          q ≠ "") →
        NewRequestOptions plainRuntime
            { method := "POST", contentType := "application/x-www-form-urlencoded",
              body := some "query=\x7ba\x7d&variables=\x7b\"a\":1\x7d&operationName=Q" } =
          NewRequestOptions plainRuntime
            { method := "GET", queryString := "query=\x7ba\x7d&variables=\x7b\"a\":1\x7d&operationName=Q" }) ∧
      ((∀ q, (parseBytesPlain "query=\x7ba\x7d&variables=\x7b\"a\":1\x7d&operationName=Q").Peek "query" = some q →
          q = "") →
        NewRequestOptions plainRuntime
            { method := "POST", contentType := "application/x-www-form-urlencoded",
              body := some "query=\x7ba\x7d&variables=\x7b\"a\":1\x7d&operationName=Q" } =
          some { Query := "", Variables := none, OperationName := "" }) :=
  form_body_resolves_like_query_string plainRuntime
    { method := "POST", contentType := "application/x-www-form-urlencoded",
      body := some "query=\x7ba\x7d&variables=\x7b\"a\":1\x7d&operationName=Q" }
    { method := "GET", queryString := "query=\x7ba\x7d&variables=\x7b\"a\":1\x7d&operationName=Q" }
    "query=\x7ba\x7d&variables=\x7b\"a\":1\x7d&operationName=Q"
    (parseBytesPlain "query=\x7ba\x7d&variables=\x7b\"a\":1\x7d&operationName=Q")
    (no_query_of_peek_none _ (by rfl)) (by rfl) (by rfl) (Or.inl (by rfl)) (by rfl) (by rfl)

/-- The first `return` of `NewRequestOptions`. -/
theorem NewRequestOptions_of_query {F : Type} (L : Runtime F) (r : Request) (o : RequestOptions F)
    (hq : getFromForm L (r.QueryArgs L) = some o) : NewRequestOptions L r = some o := by
  simp only [NewRequestOptions, hq]

/-- The second `return` of `NewRequestOptions`. -/
theorem NewRequestOptions_of_not_post {F : Type} (L : Runtime F) (r : Request)
    (hq : getFromForm L (r.QueryArgs L) = none) (hpost : r.IsPost = false) :
    NewRequestOptions L r = some {} := by
  simp only [NewRequestOptions, hq, hpost]
  rfl

/-- The third `return` of `NewRequestOptions`. -/
theorem NewRequestOptions_of_nil_body {F : Type} (L : Runtime F) (r : Request)
    (hq : getFromForm L (r.QueryArgs L) = none) (hb : r.body = none) :
    NewRequestOptions L r = some {} := by
  simp only [NewRequestOptions, hq, hb]
  split <;> rfl

/-- `NewRequestOptions` never panics. -/
theorem NewRequestOptions_isSome {F : Type} (L : Runtime F) (r : Request) :
    (NewRequestOptions L r).isSome = true := by
  obtain ⟨tok, htok⟩ := Option.isSome_iff_exists.1 (Split_zero_isSome r.contentType ';')
  unfold NewRequestOptions
  simp only [htok]
  repeat' split
  all_goals rfl

/-- C9. The result depends on the Content-Type header only through the text
before its first `;`: for `t` free of `;`, the header `t;rest` gives the same
result as the header `t`, and the token of `t;rest` is `t`. Taking the token
never fails, for no header (the empty header included), and the resolver returns
a result for every request. -/
theorem content_type_parameters_are_ignored {F : Type} (L : Runtime F) (r : Request)
    (t rest : String) (ht : ';' ∉ t.toList) :
    NewRequestOptions L { r with contentType := t ++ ";" ++ rest } =
        NewRequestOptions L { r with contentType := t } ∧
      (strings.Split (t ++ ";" ++ rest) ';')[0]? = some t ∧
      (∀ ct : String, ((strings.Split ct ';')[0]?).isSome = true) ∧
      (strings.Split "" ';')[0]? = some "" ∧
      ∀ r1 : Request, (NewRequestOptions L r1).isSome = true := by
  have h1 : (strings.Split (t ++ ";" ++ rest) ';')[0]? = some t := Split_zero_append t rest ';' ht
  have h2 : (strings.Split t ';')[0]? = some t := Split_zero_self t ';' ht
  refine ⟨?_, h1, fun ct => Split_zero_isSome ct ';', by rfl, NewRequestOptions_isSome L⟩
  cases hform : getFromForm L (r.QueryArgs L) with
  | some o =>
    rw [NewRequestOptions_of_query L { r with contentType := t ++ ";" ++ rest } o hform,
      NewRequestOptions_of_query L { r with contentType := t } o hform]
  | none =>
    cases hpost : r.IsPost with
    | false =>
      rw [NewRequestOptions_of_not_post L { r with contentType := t ++ ";" ++ rest } hform hpost,
        NewRequestOptions_of_not_post L { r with contentType := t } hform hpost]
    | true =>
      rcases Option.eq_none_or_eq_some r.body with hbody | ⟨b, hbody⟩
      · rw [NewRequestOptions_of_nil_body L { r with contentType := t ++ ";" ++ rest } hform hbody,
          NewRequestOptions_of_nil_body L { r with contentType := t } hform hbody]
      · rw [NewRequestOptions_switch L { r with contentType := t ++ ";" ++ rest } b t hform hpost hbody h1,
          NewRequestOptions_switch L { r with contentType := t } b t hform hpost hbody h2]
        by_cases hg : t = ContentTypeGraphQL
        · rw [if_pos hg, if_pos hg]
        · rw [if_neg hg, if_neg hg]
          by_cases hf : t = ContentTypeFormURLEncoded
          · rw [if_pos hf, if_pos hf]
            have p1 := PostArgs_of_form_token L { r with contentType := t ++ ";" ++ rest } b hbody
              (by rw [← hf]; exact h1)
            have p2 := PostArgs_of_form_token L { r with contentType := t } b hbody
              (by rw [← hf]; exact h2)
            rw [p1, p2]
          · rw [if_neg hf, if_neg hf]

theorem content_type_parameters_are_ignored_witness :
    NewRequestOptions plainRuntime
        { ({ method := "POST", body := some "{a}" } : Request) with
          contentType := "application/graphql" ++ ";" ++ " charset=utf-8" } =
        NewRequestOptions plainRuntime
          { ({ method := "POST", body := some "{a}" } : Request) with
            contentType := "application/graphql" } ∧
      (strings.Split ("application/graphql" ++ ";" ++ " charset=utf-8") ';')[0]? =
        some "application/graphql" ∧
      (∀ ct : String, ((strings.Split ct ';')[0]?).isSome = true) ∧
      (strings.Split "" ';')[0]? = some "" ∧
      ∀ r1 : Request, (NewRequestOptions plainRuntime r1).isSome = true :=
  content_type_parameters_are_ignored plainRuntime { method := "POST", body := some "{a}" }
    "application/graphql" " charset=utf-8" (by decide)

/-- C10. A POST request with no non-empty `query` in the query string and an
empty body, absent or of zero bytes, resolves to the all-empty request for
every Content-Type header, given that the form decoder finds no argument in an
empty body. -/
theorem post_with_empty_body_is_empty {F : Type} (L : Runtime F) (r : Request)
    (hparse : L.ParseBytes "" = [])
    (hq : ∀ q, (r.QueryArgs L).Peek "query" = some q → q = "")
    (hm : r.Method = "POST") (hb : r.body = none ∨ r.body = some "") :
    NewRequestOptions L r = some { Query := "", Variables := none, OperationName := "" } := by
  have hq0 := getFromForm_of_no_query L (r.QueryArgs L) hq
  have hpost : r.IsPost = true := by simp [Request.IsPost, hm]
  rcases hb with hb | hb
  · simp only [NewRequestOptions, hq0, hpost, hb]
    rfl
  · obtain ⟨tok, htok⟩ := Option.isSome_iff_exists.1 (Split_zero_isSome r.contentType ';')
    rw [NewRequestOptions_switch L r "" tok hq0 hpost hb htok]
    have hpa : r.PostArgs L = [] := by
      unfold Request.PostArgs
      split
      · rw [hb]
        exact hparse
      · rfl
    have hnil : getFromForm L ([] : Args) = none :=
      getFromForm_of_no_query L [] (no_query_of_peek_none [] rfl)
    have hp : json.parse "" = none := by rfl
    have h1 : json.UnmarshalRequestOptions L.ParseFloat "" {} = ({}, true) := by
      simp only [json.UnmarshalRequestOptions, hp]
    have h2 : json.UnmarshalCompatibility "" {} = ({}, true) := by
      simp only [json.UnmarshalCompatibility, hp]
    rw [hpa, hnil, h1, h2]
    split
    · rfl
    · split
      · rfl
      · simp only [if_true]
        rw [UnmarshalMap_empty]

theorem post_with_empty_body_is_empty_witness :
    NewRequestOptions plainRuntime
        { method := "POST", contentType := "application/x-www-form-urlencoded", body := some "" } =
      some { Query := "", Variables := none, OperationName := "" } :=
  post_with_empty_body_is_empty plainRuntime
    { method := "POST", contentType := "application/x-www-form-urlencoded", body := some "" }
    (by rfl) (no_query_of_peek_none _ (by rfl)) (by rfl) (Or.inr (by rfl))

/-- C11. `NewRequestOptions` returns a result for every request, and a POST
request handled by the default branch whose body is no valid JSON text, so that
every `Unmarshal` fails, resolves to the all-empty request. -/
theorem invalid_json_body_is_empty {F : Type} (L : Runtime F) (r : Request) (b : String)
    (hq : ∀ q, (r.QueryArgs L).Peek "query" = some q → q = "")
    (hm : r.Method = "POST") (hb : r.body = some b)
    (hg : (strings.Split r.contentType ';')[0]? ≠ some ContentTypeGraphQL)
    (hf : (strings.Split r.contentType ';')[0]? ≠ some ContentTypeFormURLEncoded)
    (hp : json.parse b = none) :
    NewRequestOptions L r = some { Query := "", Variables := none, OperationName := "" } ∧
      ∀ r1 : Request, (NewRequestOptions L r1).isSome = true := by
  refine ⟨?_, NewRequestOptions_isSome L⟩
  rw [NewRequestOptions_json_branch L r b hq hm hb hg hf]
  have h1 : json.UnmarshalRequestOptions L.ParseFloat b {} = ({}, true) := by
    simp only [json.UnmarshalRequestOptions, hp]
  have h2 : json.UnmarshalCompatibility b {} = ({}, true) := by
    simp only [json.UnmarshalCompatibility, hp]
  rw [h1, h2]
  simp only [if_true]
  rw [UnmarshalMap_empty]

theorem invalid_json_body_is_empty_witness :
    NewRequestOptions plainRuntime
        { method := "POST", contentType := "application/json", body := some "not json" } =
        some { Query := "", Variables := none, OperationName := "" } ∧
      ∀ r1 : Request, (NewRequestOptions plainRuntime r1).isSome = true :=
  invalid_json_body_is_empty plainRuntime
    { method := "POST", contentType := "application/json", body := some "not json" } "not json"
    (no_query_of_peek_none _ (by rfl)) (by rfl) (by rfl) (by decide) (by decide) (by rfl)

/-! ## Properties of the dispatcher -/

/-- `renderGraphiQL` only adds inner calls to the record. -/
theorem renderGraphiQL_events {F S Err : Type} (E : Env F S Err) (ctx : RequestCtx F S Err)
    (params : Params F S) :
    ∃ extra, (renderGraphiQL E ctx params).events = ctx.events ++ extra ∧
      ∀ e ∈ extra, e.isInner = true := by
  unfold renderGraphiQL
  cases E.ParseGraphiQL with
  | some err => exact ⟨[], by simp [RequestCtx.Error], by simp⟩
  | none =>
    cases E.MarshalIndentVariables params.VariableValues with
    | error err => exact ⟨[], by simp [RequestCtx.Error], by simp⟩
    | ok vars =>
      by_cases hq : params.RequestString = ""
      · simp only [hq, if_true]
        cases hx : (E.ExecuteGraphiQL _).2 <;>
          exact ⟨_, by
            simp only [hx, RequestCtx.Error, RequestCtx.Write, RequestCtx.log,
              RequestCtx.SetContentType, List.append_assoc]; rfl, by
            simp [Event.isInner]⟩
      · simp only [hq, if_false]
        cases E.MarshalIndent (E.Do ctx.doCalls params) "  " with
        | error err =>
          exact ⟨[Event.Do params], by simp [RequestCtx.Error, RequestCtx.log], by
            simp [Event.isInner]⟩
        | ok res =>
          simp only []
          cases hx : (E.ExecuteGraphiQL _).2 <;>
            exact ⟨_, by
              simp only [hx, RequestCtx.Error, RequestCtx.Write, RequestCtx.log,
                RequestCtx.SetContentType, List.append_assoc]; rfl, by
              simp [Event.isInner]⟩

/-- `renderPlayground` only adds inner calls to the record. -/
theorem renderPlayground_events {F S Err : Type} (E : Env F S Err) (ctx : RequestCtx F S Err) :
    ∃ extra, (renderPlayground E ctx).events = ctx.events ++ extra ∧
      ∀ e ∈ extra, e.isInner = true := by
  unfold renderPlayground
  cases E.ParsePlayground with
  | some err => exact ⟨[], by simp [RequestCtx.Error], by simp⟩
  | none =>
    simp only []
    cases hx : (E.ExecutePlayground _).2 <;>
      exact ⟨_, by
        simp only [hx, RequestCtx.Error, RequestCtx.Write, RequestCtx.log,
          RequestCtx.SetContentType, List.append_assoc]; rfl, by
        simp [Event.isInner]⟩

/-- `serveStatic` only adds inner calls to the record. -/
theorem serveStatic_events {F S Err : Type} (E : Env F S Err) (ctx : RequestCtx F S Err) :
    ∃ extra, (serveStatic E ctx).events = ctx.events ++ extra ∧
      ∀ e ∈ extra, e.isInner = true := by
  unfold serveStatic
  simp only []
  cases sliceFrom ctx.Request.path (strings.Index ctx.Request.path "/static/" + 8) with
  | none => exact ⟨[], by simp, by simp⟩
  | some path =>
    simp only []
    cases (E.Find path).2 with
    | notExist =>
      exact ⟨_, by
        simp only [RequestCtx.SetStatusCode, RequestCtx.log, List.append_assoc]; rfl, by
        simp [Event.isInner]⟩
    | nil =>
      simp only []
      split <;> [split; skip] <;>
        exact ⟨_, by
          simp only [RequestCtx.SetContentType, RequestCtx.SetBody, RequestCtx.log]; rfl, by
          simp [Event.isInner]⟩
    | other msg =>
      simp only []
      split <;> [split; skip] <;>
        exact ⟨_, by
          simp only [RequestCtx.SetContentType, RequestCtx.SetBody, RequestCtx.log,
            List.append_assoc]; rfl, by
          simp [Event.isInner]⟩

/-- A property that no inner call has is kept by a run of inner calls. -/
theorem any_append_inner {F S Err : Type} (P : Event F S Err → Bool)
    (hP : ∀ e, e.isInner = true → P e = false) (events extra : List (Event F S Err))
    (hextra : ∀ e ∈ extra, e.isInner = true) :
    (events ++ extra).any P = events.any P := by
  have : extra.any P = false := by
    rw [List.any_eq_false]
    intro e he
    simp [hP e (hextra e he)]
  simp [List.any_append, this]

theorem formatErrorCalls_append_inner {F S Err : Type} (events extra : List (Event F S Err))
    (hextra : ∀ e ∈ extra, e.isInner = true) :
    formatErrorCalls (events ++ extra) = formatErrorCalls events := by
  unfold formatErrorCalls
  rw [List.filterMap_append]
  have : extra.filterMap (fun e => match e with
      | Event.formatErrorFn err => some err
      | _ => none) = [] := by
    rw [List.filterMap_eq_nil_iff]
    intro e he
    have := hextra e he
    cases e <;> simp_all [Event.isInner]
  rw [this, List.append_nil]

theorem not_inner_of_marker {F S Err : Type} (e : Event F S Err) (h : e.isInner = true) :
    e.isRenderGraphiQL = false ∧ e.isRenderPlayground = false ∧ e.isServeStatic = false ∧
      e.isResultCallbackFn = false ∧ e.isFormatErrorFn = false := by
  cases e <;> simp_all [Event.isInner, Event.isRenderGraphiQL, Event.isRenderPlayground,
    Event.isServeStatic, Event.isResultCallbackFn, Event.isFormatErrorFn]

/-- `ServeHTTP` on a fresh request context, for a handler with a schema: the
four ways it can respond. -/
theorem ServeHTTP_fresh {F S Err CB : Type} (L : Runtime F) (E : Env F S Err)
    (h : Handler F S Err CB) (r : Request) (schema : S) (opts : RequestOptions F)
    (hs : h.Schema = some schema) (hopts : NewRequestOptions L r = some opts) :
    ServeHTTP L E h { Request := r } =
      some
        { reqCtx :=
            if h.graphiql && uiRequested L r then
              renderGraphiQL E
                { Request := r
                  events := callsBeforeRouting h (paramsOf h schema opts r)
                    (E.Do 0 (paramsOf h schema opts r)) ++
                      [Event.renderGraphiQL (paramsOf h schema opts r)] }
                (paramsOf h schema opts r)
            else if h.playground && uiRequested L r then
              renderPlayground E
                { Request := r
                  events := callsBeforeRouting h (paramsOf h schema opts r)
                    (E.Do 0 (paramsOf h schema opts r)) ++ [Event.renderPlayground] }
            else if r.Method == "GET" && strings.Contains r.path "/static/" then
              serveStatic E
                { Request := r
                  events := callsBeforeRouting h (paramsOf h schema opts r)
                    (E.Do 0 (paramsOf h schema opts r)) ++ [Event.serveStatic] }
            else
              { Request := r
                Response :=
                  { statusCode := 200
                    contentType := "application/json; charset=utf-8"
                    body := bytesToString
                      (if h.pretty then
                        (E.MarshalIndent
                          (reshapedResult h (E.Do 0 (paramsOf h schema opts r))) "\t").toOption
                      else (E.Marshal (reshapedResult h (E.Do 0 (paramsOf h schema opts r)))).toOption) }
                events := callsBeforeRouting h (paramsOf h schema opts r)
                    (E.Do 0 (paramsOf h schema opts r)) ++
                  [Event.Write (bytesToString
                    (if h.pretty then
                      (E.MarshalIndent
                        (reshapedResult h (E.Do 0 (paramsOf h schema opts r))) "\t").toOption
                    else (E.Marshal (reshapedResult h (E.Do 0 (paramsOf h schema opts r)))).toOption))] ++
                  (match h.resultCallbackFn with
                    | some _ =>
                      [Event.resultCallbackFn (paramsOf h schema opts r)
                        (reshapedResult h (E.Do 0 (paramsOf h schema opts r)))
                        (if h.pretty then
                          (E.MarshalIndent
                            (reshapedResult h (E.Do 0 (paramsOf h schema opts r))) "\t").toOption
                        else
                          (E.Marshal (reshapedResult h (E.Do 0 (paramsOf h schema opts r)))).toOption)]
                    | none => []) }
          params := paramsOf h schema opts r
          result := reshapedResult h (E.Do 0 (paramsOf h schema opts r)) } := by
  unfold ServeHTTP
  simp only [hopts, hs]
  cases hroot : h.rootObjectFn <;> cases hfmt : h.formatErrorFn <;>
    cases hcb : h.resultCallbackFn <;>
    by_cases herr : (E.Do 0 (paramsOf h schema opts r)).Errors.length > 0 <;>
    simp only [paramsOf, hroot, hfmt] at herr <;>
    simp [uiRequested, paramsOf, reshapedResult, callsBeforeRouting, RequestCtx.log,
      RequestCtx.doCalls, RequestCtx.SetContentType, RequestCtx.SetStatusCode, RequestCtx.Write,
      StatusOK, Event.isDo, hroot, hfmt, hcb, herr] <;>
    (split_ifs <;> rfl)

/-- The calls before routing are calls of `rootObjectFn`, the engine and
`formatErrorFn` only. -/
theorem callsBeforeRouting_any {F S Err CB : Type} (h : Handler F S Err CB) (params : Params F S)
    (result : Result F Err) :
    (callsBeforeRouting h params result).any Event.isRenderGraphiQL = false ∧
      (callsBeforeRouting h params result).any Event.isRenderPlayground = false ∧
      (callsBeforeRouting h params result).any Event.isServeStatic = false ∧
      (callsBeforeRouting h params result).any Event.isResultCallbackFn = false := by
  unfold callsBeforeRouting
  cases h.rootObjectFn <;> cases h.formatErrorFn <;>
    by_cases herr : result.Errors.length > 0 <;>
    simp [herr, List.any_append, List.any_map, Event.isRenderGraphiQL, Event.isRenderPlayground,
      Event.isServeStatic, Event.isResultCallbackFn, Function.comp_def]

theorem filterMap_some_eq_map {α β : Type} (f : α → β) (l : List α) :
    l.filterMap (fun x => some (f x)) = l.map f := by
  induction l with
  | nil => rfl
  | cons a l ih => simp [List.filterMap_cons, ih]

/-- The `formatErrorFn` calls among the calls before routing. -/
theorem callsBeforeRouting_formatErrorCalls {F S Err CB : Type} (h : Handler F S Err CB)
    (params : Params F S) (result : Result F Err) :
    formatErrorCalls (callsBeforeRouting h params result) =
      if h.formatErrorFn.isSome && result.Errors.length > 0 then
        result.Errors.map fun e => e.OriginalError
      else [] := by
  unfold callsBeforeRouting formatErrorCalls
  cases h.rootObjectFn <;> cases h.formatErrorFn <;>
    by_cases herr : result.Errors.length > 0 <;>
    simp [herr, List.filterMap_append, List.filterMap_map, Function.comp_def,
      filterMap_some_eq_map]

/-- What a served request leaves behind, on a fresh context and for a handler
with a schema: the locals, which response function was called, whether the
result callback was called, and the errors `formatErrorFn` was called with. -/
theorem ServeHTTP_calls {F S Err CB : Type} (L : Runtime F) (E : Env F S Err)
    (h : Handler F S Err CB) (r : Request) (schema : S) (opts : RequestOptions F)
    (hs : h.Schema = some schema) (hopts : NewRequestOptions L r = some opts) :
    ∃ o, ServeHTTP L E h { Request := r } = some o ∧
      o.params = paramsOf h schema opts r ∧
      o.result = reshapedResult h (E.Do 0 (paramsOf h schema opts r)) ∧
      o.reqCtx.events.any Event.isRenderGraphiQL = (h.graphiql && uiRequested L r) ∧
      o.reqCtx.events.any Event.isRenderPlayground =
        (!(h.graphiql && uiRequested L r) && (h.playground && uiRequested L r)) ∧
      o.reqCtx.events.any Event.isServeStatic =
        (!(h.graphiql && uiRequested L r) && !(h.playground && uiRequested L r) &&
          (r.Method == "GET" && strings.Contains r.path "/static/")) ∧
      o.reqCtx.events.any Event.isResultCallbackFn =
        (!(h.graphiql && uiRequested L r) && !(h.playground && uiRequested L r) &&
          !(r.Method == "GET" && strings.Contains r.path "/static/") &&
          h.resultCallbackFn.isSome) ∧
      formatErrorCalls o.reqCtx.events =
        (if h.formatErrorFn.isSome && (E.Do 0 (paramsOf h schema opts r)).Errors.length > 0 then
          (E.Do 0 (paramsOf h schema opts r)).Errors.map fun e => e.OriginalError
        else []) := by
  refine ⟨_, ServeHTTP_fresh L E h r schema opts hs hopts, rfl, rfl, ?_⟩
  obtain ⟨b1, b2, b3, b4⟩ := callsBeforeRouting_any h (paramsOf h schema opts r)
    (E.Do 0 (paramsOf h schema opts r))
  have b5 := callsBeforeRouting_formatErrorCalls h (paramsOf h schema opts r)
    (E.Do 0 (paramsOf h schema opts r))
  have inner1 : ∀ e : Event F S Err, e.isInner = true → e.isRenderGraphiQL = false :=
    fun e he => (not_inner_of_marker e he).1
  have inner2 : ∀ e : Event F S Err, e.isInner = true → e.isRenderPlayground = false :=
    fun e he => (not_inner_of_marker e he).2.1
  have inner3 : ∀ e : Event F S Err, e.isInner = true → e.isServeStatic = false :=
    fun e he => (not_inner_of_marker e he).2.2.1
  have inner4 : ∀ e : Event F S Err, e.isInner = true → e.isResultCallbackFn = false :=
    fun e he => (not_inner_of_marker e he).2.2.2.1
  by_cases hg : (h.graphiql && uiRequested L r) = true
  · simp only [hg, if_true]
    obtain ⟨extra, hev, hin⟩ := renderGraphiQL_events E
      { Request := r
        events := callsBeforeRouting h (paramsOf h schema opts r)
          (E.Do 0 (paramsOf h schema opts r)) ++
            [Event.renderGraphiQL (paramsOf h schema opts r)] }
      (paramsOf h schema opts r)
    rw [hev, any_append_inner _ inner1 _ _ hin, any_append_inner _ inner2 _ _ hin,
      any_append_inner _ inner3 _ _ hin, any_append_inner _ inner4 _ _ hin,
      formatErrorCalls_append_inner _ _ hin]
    simp only [List.any_append, b1, b2, b3, b4]
    refine ⟨by simp [Event.isRenderGraphiQL], by simp [Event.isRenderPlayground],
      by simp [Event.isServeStatic], by simp [Event.isResultCallbackFn], ?_⟩
    rw [← b5]
    simp [formatErrorCalls, List.filterMap_append]
  · rw [Bool.not_eq_true] at hg
    simp only [hg, Bool.false_eq_true, if_false, Bool.not_false, Bool.true_and]
    by_cases hpl : (h.playground && uiRequested L r) = true
    · simp only [hpl, if_true]
      obtain ⟨extra, hev, hin⟩ := renderPlayground_events E
        { Request := r
          events := callsBeforeRouting h (paramsOf h schema opts r)
            (E.Do 0 (paramsOf h schema opts r)) ++ [Event.renderPlayground] }
      rw [hev, any_append_inner _ inner1 _ _ hin, any_append_inner _ inner2 _ _ hin,
        any_append_inner _ inner3 _ _ hin, any_append_inner _ inner4 _ _ hin,
        formatErrorCalls_append_inner _ _ hin]
      simp only [List.any_append, b1, b2, b3, b4]
      refine ⟨by simp [Event.isRenderGraphiQL], by simp [Event.isRenderPlayground],
        by simp [Event.isServeStatic], by simp [Event.isResultCallbackFn], ?_⟩
      rw [← b5]
      simp [formatErrorCalls, List.filterMap_append]
    · rw [Bool.not_eq_true] at hpl
      simp only [hpl, Bool.false_eq_true, if_false, Bool.not_false, Bool.true_and]
      by_cases hst : (r.Method == "GET" && strings.Contains r.path "/static/") = true
      · simp only [hst, if_true]
        obtain ⟨extra, hev, hin⟩ := serveStatic_events E
          { Request := r
            events := callsBeforeRouting h (paramsOf h schema opts r)
              (E.Do 0 (paramsOf h schema opts r)) ++ [Event.serveStatic] }
        rw [hev, any_append_inner _ inner1 _ _ hin, any_append_inner _ inner2 _ _ hin,
          any_append_inner _ inner3 _ _ hin, any_append_inner _ inner4 _ _ hin,
          formatErrorCalls_append_inner _ _ hin]
        simp only [List.any_append, b1, b2, b3, b4]
        refine ⟨by simp [Event.isRenderGraphiQL], by simp [Event.isRenderPlayground],
          by simp [Event.isServeStatic], by simp [Event.isResultCallbackFn], ?_⟩
        rw [← b5]
        simp [formatErrorCalls, List.filterMap_append]
      · rw [Bool.not_eq_true] at hst
        simp only [hst, Bool.false_eq_true, if_false, Bool.not_false, Bool.true_and]
        simp only [List.any_append, b1, b2, b3, b4]
        rw [← b5]
        cases h.resultCallbackFn <;>
          simp [Event.isRenderGraphiQL, Event.isRenderPlayground, Event.isServeStatic,
            Event.isResultCallbackFn, formatErrorCalls, List.filterMap_append]

/-- The JSON branch of `ServeHTTP` on a fresh context: the request context it
leaves behind. -/
theorem ServeHTTP_json {F S Err CB : Type} (L : Runtime F) (E : Env F S Err)
    (h : Handler F S Err CB) (r : Request) (schema : S) (opts : RequestOptions F)
    (hs : h.Schema = some schema) (hopts : NewRequestOptions L r = some opts)
    (hg : (h.graphiql && uiRequested L r) = false)
    (hpl : (h.playground && uiRequested L r) = false)
    (hst : (r.Method == "GET" && strings.Contains r.path "/static/") = false)
    (buff : Option String)
    (hbuff : buff = if h.pretty then
        (E.MarshalIndent (reshapedResult h (E.Do 0 (paramsOf h schema opts r))) "\t").toOption
      else (E.Marshal (reshapedResult h (E.Do 0 (paramsOf h schema opts r)))).toOption) :
    ServeHTTP L E h { Request := r } =
      some
        { reqCtx :=
            { Request := r
              Response :=
                { statusCode := 200
                  contentType := "application/json; charset=utf-8"
                  body := bytesToString buff }
              events := callsBeforeRouting h (paramsOf h schema opts r)
                  (E.Do 0 (paramsOf h schema opts r)) ++
                [Event.Write (bytesToString buff)] ++
                (match h.resultCallbackFn with
                  | some _ =>
                    [Event.resultCallbackFn (paramsOf h schema opts r)
                      (reshapedResult h (E.Do 0 (paramsOf h schema opts r))) buff]
                  | none => []) }
          params := paramsOf h schema opts r
          result := reshapedResult h (E.Do 0 (paramsOf h schema opts r)) } := by
  rw [ServeHTTP_fresh L E h r schema opts hs hopts, hbuff]
  simp only [hg, hpl, hst, Bool.false_eq_true, if_false]

/-- The response mode of a served request, from the handler's flags and the
request. -/
theorem ServeHTTP_mode {F S Err CB : Type} (L : Runtime F) (E : Env F S Err)
    (h : Handler F S Err CB) (r : Request) (schema : S) (hs : h.Schema = some schema) :
    ∃ o, ServeHTTP L E h { Request := r } = some o ∧
      o.reqCtx.mode =
        if h.graphiql && uiRequested L r then Mode.GraphiQL
        else if h.playground && uiRequested L r then Mode.Playground
        else if r.Method == "GET" && strings.Contains r.path "/static/" then Mode.StaticAsset
        else Mode.JSONResult := by
  obtain ⟨opts, hopts⟩ := Option.isSome_iff_exists.1 (NewRequestOptions_isSome L r)
  obtain ⟨o, ho, -, -, h1, h2, h3, -, -⟩ := ServeHTTP_calls L E h r schema opts hs hopts
  refine ⟨o, ho, ?_⟩
  unfold RequestCtx.mode
  rw [h1, h2, h3]
  cases (h.graphiql && uiRequested L r) <;> cases (h.playground && uiRequested L r) <;>
    cases (r.Method == "GET" && strings.Contains r.path "/static/") <;> rfl

/-- C12. A request is answered by `renderGraphiQL` if and only if the
handler's graphiql flag is set, the query string has no `raw` parameter, and the
Accept header contains `text/html` but not `application/json`; nothing else of
the request or the handler enters the condition. -/
theorem graphiql_rendered_iff {F S Err CB : Type} (L : Runtime F) (E : Env F S Err)
    (h : Handler F S Err CB) (r : Request) (schema : S) (hs : h.Schema = some schema) :
    ∃ o, ServeHTTP L E h { Request := r } = some o ∧
      (o.reqCtx.events.any Event.isRenderGraphiQL = true ↔
        h.graphiql = true ∧ (r.QueryArgs L).Has "raw" = false ∧
          strings.Contains r.accept "application/json" = false ∧
          strings.Contains r.accept "text/html" = true) := by
  obtain ⟨opts, hopts⟩ := Option.isSome_iff_exists.1 (NewRequestOptions_isSome L r)
  obtain ⟨o, ho, -, -, h1, -⟩ := ServeHTTP_calls L E h r schema opts hs hopts
  refine ⟨o, ho, ?_⟩
  rw [h1]
  simp [uiRequested, and_assoc]

theorem graphiql_rendered_iff_witness :
    ∃ o, ServeHTTP plainRuntime plainEnv (plainHandler true false)
        { Request := { method := "GET", path := "/graphql", accept := "text/html" } } = some o ∧
      (o.reqCtx.events.any Event.isRenderGraphiQL = true ↔
        (plainHandler true false).graphiql = true ∧
          (Request.QueryArgs plainRuntime
            { method := "GET", path := "/graphql", accept := "text/html" }).Has "raw" = false ∧
          strings.Contains "text/html" "application/json" = false ∧
          strings.Contains "text/html" "text/html" = true) :=
  graphiql_rendered_iff plainRuntime plainEnv (plainHandler true false)
    { method := "GET", path := "/graphql", accept := "text/html" } "schema" rfl

/-- C13. A request is answered by `renderPlayground` if and only if the
graphiql flag is off, the playground flag is on, there is no `raw` parameter,
and the Accept header contains `text/html` but not `application/json`. A handler
with both flags on never renders Playground, and renders GraphiQL whenever the
three conditions on the request hold. -/
theorem playground_rendered_iff {F S Err CB : Type} (L : Runtime F) (E : Env F S Err)
    (h : Handler F S Err CB) (r : Request) (schema : S) (hs : h.Schema = some schema) :
    ∃ o, ServeHTTP L E h { Request := r } = some o ∧
      (o.reqCtx.events.any Event.isRenderPlayground = true ↔
        h.graphiql = false ∧ h.playground = true ∧ (r.QueryArgs L).Has "raw" = false ∧
          strings.Contains r.accept "application/json" = false ∧
          strings.Contains r.accept "text/html" = true) ∧
      (h.graphiql = true → h.playground = true →
        o.reqCtx.events.any Event.isRenderPlayground = false ∧
        (o.reqCtx.events.any Event.isRenderGraphiQL = true ↔
          (r.QueryArgs L).Has "raw" = false ∧
            strings.Contains r.accept "application/json" = false ∧
            strings.Contains r.accept "text/html" = true)) := by
  obtain ⟨opts, hopts⟩ := Option.isSome_iff_exists.1 (NewRequestOptions_isSome L r)
  obtain ⟨o, ho, -, -, h1, h2, -⟩ := ServeHTTP_calls L E h r schema opts hs hopts
  refine ⟨o, ho, ?_, ?_⟩
  · rw [h2]
    unfold uiRequested
    generalize (r.QueryArgs L).Has "raw" = a
    generalize strings.Contains r.accept "application/json" = b
    generalize strings.Contains r.accept "text/html" = c
    generalize h.graphiql = g
    generalize h.playground = p
    cases g <;> cases p <;> cases a <;> cases b <;> cases c <;> simp
  · intro hg hp
    rw [h1, h2, hg, hp]
    unfold uiRequested
    generalize (r.QueryArgs L).Has "raw" = a
    generalize strings.Contains r.accept "application/json" = b
    generalize strings.Contains r.accept "text/html" = c
    cases a <;> cases b <;> cases c <;> simp

theorem playground_rendered_iff_witness :
    ∃ o, ServeHTTP plainRuntime plainEnv (plainHandler false true)
        { Request := { method := "GET", path := "/graphql", accept := "text/html" } } = some o ∧
      (o.reqCtx.events.any Event.isRenderPlayground = true ↔
        (plainHandler false true).graphiql = false ∧ (plainHandler false true).playground = true ∧
          (Request.QueryArgs plainRuntime
            { method := "GET", path := "/graphql", accept := "text/html" }).Has "raw" = false ∧
          strings.Contains "text/html" "application/json" = false ∧
          strings.Contains "text/html" "text/html" = true) ∧
      ((plainHandler false true).graphiql = true → (plainHandler false true).playground = true →
        o.reqCtx.events.any Event.isRenderPlayground = false ∧
        (o.reqCtx.events.any Event.isRenderGraphiQL = true ↔
          (Request.QueryArgs plainRuntime
            { method := "GET", path := "/graphql", accept := "text/html" }).Has "raw" = false ∧
            strings.Contains "text/html" "application/json" = false ∧
            strings.Contains "text/html" "text/html" = true)) :=
  playground_rendered_iff plainRuntime plainEnv (plainHandler false true)
    { method := "GET", path := "/graphql", accept := "text/html" } "schema" rfl

/-- C14, as stated, fails: a GET request for `/static/app.js?raw` with
`Accept: text/html` carries `raw` and is answered by `serveStatic`, with the
content type of the asset. -/
theorem raw_static_request_is_not_json :
    ∃ o, ServeHTTP plainRuntime plainEnv (plainHandler true true)
        { Request := { method := "GET", path := "/static/app.js", queryString := "raw",
                       accept := "text/html" } } = some o ∧
      (Request.QueryArgs plainRuntime
        { method := "GET", path := "/static/app.js", queryString := "raw",
          accept := "text/html" }).Has "raw" = true ∧
      o.reqCtx.mode = Mode.StaticAsset ∧
      o.reqCtx.Response.contentType ≠ "application/json; charset=utf-8" :=
  ⟨_, rfl, by rfl, by rfl, by decide⟩

/-- C14, amended. A request that carries a `raw` query parameter and the header
`Accept: text/html`, and that is not a GET request whose path contains
`/static/`, is answered with JSON for every setting of the graphiql and
playground flags: the content type is `application/json; charset=utf-8`. -/
theorem raw_request_gets_json {F S Err CB : Type} (L : Runtime F) (E : Env F S Err)
    (h : Handler F S Err CB) (r : Request) (schema : S) (hs : h.Schema = some schema)
    (hraw : (r.QueryArgs L).Has "raw" = true) (_haccept : r.accept = "text/html")
    (hns : ¬ (r.Method = "GET" ∧ strings.Contains r.path "/static/" = true)) :
    ∃ o, ServeHTTP L E h { Request := r } = some o ∧
      o.reqCtx.mode = Mode.JSONResult ∧
      o.reqCtx.Response.contentType = "application/json; charset=utf-8" := by
  obtain ⟨opts, hopts⟩ := Option.isSome_iff_exists.1 (NewRequestOptions_isSome L r)
  have hui : uiRequested L r = false := by simp [uiRequested, hraw]
  have hst : (r.Method == "GET" && strings.Contains r.path "/static/") = false := by
    rw [Bool.and_eq_false_iff]
    by_cases hm : r.Method = "GET"
    · right
      simpa using fun hc => hns ⟨hm, hc⟩
    · left
      simpa using hm
  have hjson := ServeHTTP_json L E h r schema opts hs hopts (by simp [hui]) (by simp [hui]) hst _ rfl
  obtain ⟨o, ho, hmode⟩ := ServeHTTP_mode L E h r schema hs
  refine ⟨o, ho, ?_, ?_⟩
  · rw [hmode]
    simp [hui, hst]
  · rw [hjson] at ho
    cases ho
    rfl

theorem raw_request_gets_json_witness :
    ∃ o, ServeHTTP plainRuntime plainEnv (plainHandler true true)
        { Request := { method := "GET", path := "/graphql", queryString := "raw",
                       accept := "text/html" } } = some o ∧
      o.reqCtx.mode = Mode.JSONResult ∧
      o.reqCtx.Response.contentType = "application/json; charset=utf-8" :=
  raw_request_gets_json plainRuntime plainEnv (plainHandler true true)
    { method := "GET", path := "/graphql", queryString := "raw", accept := "text/html" }
    "schema" rfl (by rfl) (by rfl) (by decide)

/-- C15. A request is answered by `serveStatic` if and only if neither
`renderGraphiQL` nor `renderPlayground` was called for it, its method is `GET`
and its path contains `/static/`. At most one of the three functions is called,
and a request for which none is called gets the JSON response. -/
theorem static_asset_routed_iff {F S Err CB : Type} (L : Runtime F) (E : Env F S Err)
    (h : Handler F S Err CB) (r : Request) (schema : S) (hs : h.Schema = some schema) :
    ∃ o, ServeHTTP L E h { Request := r } = some o ∧
      (o.reqCtx.events.any Event.isServeStatic = true ↔
        o.reqCtx.events.any Event.isRenderGraphiQL = false ∧
          o.reqCtx.events.any Event.isRenderPlayground = false ∧
          r.Method = "GET" ∧ strings.Contains r.path "/static/" = true) ∧
      ¬ (o.reqCtx.events.any Event.isRenderGraphiQL = true ∧
          o.reqCtx.events.any Event.isRenderPlayground = true) ∧
      ¬ (o.reqCtx.events.any Event.isRenderGraphiQL = true ∧
          o.reqCtx.events.any Event.isServeStatic = true) ∧
      ¬ (o.reqCtx.events.any Event.isRenderPlayground = true ∧
          o.reqCtx.events.any Event.isServeStatic = true) ∧
      (o.reqCtx.events.any Event.isRenderGraphiQL = false →
        o.reqCtx.events.any Event.isRenderPlayground = false →
        o.reqCtx.events.any Event.isServeStatic = false →
        o.reqCtx.mode = Mode.JSONResult ∧
          o.reqCtx.Response.contentType = "application/json; charset=utf-8" ∧
          o.reqCtx.Response.statusCode = 200) := by
  obtain ⟨opts, hopts⟩ := Option.isSome_iff_exists.1 (NewRequestOptions_isSome L r)
  obtain ⟨o, ho, -, -, h1, h2, h3, -, -⟩ := ServeHTTP_calls L E h r schema opts hs hopts
  refine ⟨o, ho, ?_, ?_, ?_, ?_, ?_⟩
  · rw [h1, h2, h3]
    generalize (h.graphiql && uiRequested L r) = a
    generalize (h.playground && uiRequested L r) = b
    generalize strings.Contains r.path "/static/" = c
    by_cases hm : r.Method = "GET" <;> cases a <;> cases b <;> cases c <;> simp [hm]
  · rw [h1, h2]
    generalize (h.graphiql && uiRequested L r) = a
    cases a <;> simp
  · rw [h1, h3]
    generalize (h.graphiql && uiRequested L r) = a
    cases a <;> simp
  · rw [h2, h3]
    generalize (h.graphiql && uiRequested L r) = a
    generalize (h.playground && uiRequested L r) = b
    cases a <;> cases b <;> simp
  · intro n1 n2 n3
    rw [h1] at n1
    rw [h2, n1] at n2
    rw [h3, n1] at n3
    simp only [Bool.not_false, Bool.true_and] at n2 n3
    rw [n2] at n3
    simp only [Bool.not_false, Bool.true_and] at n3
    have hjson := ServeHTTP_json L E h r schema opts hs hopts n1 n2 n3 _ rfl
    rw [hjson] at ho
    cases ho
    refine ⟨?_, rfl, rfl⟩
    obtain ⟨o2, ho2, hmode⟩ := ServeHTTP_mode L E h r schema hs
    rw [hjson] at ho2
    cases ho2
    rw [hmode]
    simp [n1, n2, n3]

theorem static_asset_routed_iff_witness :
    ∃ o, ServeHTTP plainRuntime plainEnv (plainHandler true true)
        { Request := { method := "GET", path := "/static/app.js" } } = some o ∧
      (o.reqCtx.events.any Event.isServeStatic = true ↔
        o.reqCtx.events.any Event.isRenderGraphiQL = false ∧
          o.reqCtx.events.any Event.isRenderPlayground = false ∧
          Request.Method { method := "GET", path := "/static/app.js" } = "GET" ∧
          strings.Contains "/static/app.js" "/static/" = true) ∧
      ¬ (o.reqCtx.events.any Event.isRenderGraphiQL = true ∧
          o.reqCtx.events.any Event.isRenderPlayground = true) ∧
      ¬ (o.reqCtx.events.any Event.isRenderGraphiQL = true ∧
          o.reqCtx.events.any Event.isServeStatic = true) ∧
      ¬ (o.reqCtx.events.any Event.isRenderPlayground = true ∧
          o.reqCtx.events.any Event.isServeStatic = true) ∧
      (o.reqCtx.events.any Event.isRenderGraphiQL = false →
        o.reqCtx.events.any Event.isRenderPlayground = false →
        o.reqCtx.events.any Event.isServeStatic = false →
        o.reqCtx.mode = Mode.JSONResult ∧
          o.reqCtx.Response.contentType = "application/json; charset=utf-8" ∧
          o.reqCtx.Response.statusCode = 200) :=
  static_asset_routed_iff plainRuntime plainEnv (plainHandler true true)
    { method := "GET", path := "/static/app.js" } "schema" rfl

/-- C16, as stated, fails: with the graphiql flag on, two GET requests for
`/static/app.js` that differ only in the Accept header are routed differently,
the one with `Accept: text/html` to GraphiQL and the other to the asset. -/
theorem static_routing_depends_on_accept :
    ∃ o1 o2,
      ServeHTTP plainRuntime plainEnv (plainHandler true false)
        { Request := { method := "GET", path := "/static/app.js", accept := "text/html" } } =
          some o1 ∧
      ServeHTTP plainRuntime plainEnv (plainHandler true false)
        { Request := { method := "GET", path := "/static/app.js", accept := "" } } = some o2 ∧
      o1.reqCtx.mode = Mode.GraphiQL ∧ o2.reqCtx.mode = Mode.StaticAsset :=
  ⟨_, _, rfl, rfl, by rfl, by rfl⟩

/-- C16, amended. Among the requests that are not answered by an interactive
UI (the handler has both flags off, or the request carries `raw`, or its Accept
header contains `application/json` or lacks `text/html`), static-asset routing
is gated on path and method alone: two such requests that agree on the method
and on the path are both answered by `serveStatic` or neither is, and such a
request is answered by `serveStatic` exactly when its method is `GET` and its
path contains `/static/`. -/
theorem static_routing_without_ui {F S Err CB : Type} (L : Runtime F) (E : Env F S Err)
    (h : Handler F S Err CB) (r1 r2 : Request) (schema : S) (hs : h.Schema = some schema)
    (hm : r1.Method = r2.Method) (hp : r1.path = r2.path)
    (hu1 : (h.graphiql = false ∧ h.playground = false) ∨ (r1.QueryArgs L).Has "raw" = true ∨
      strings.Contains r1.accept "application/json" = true ∨
      strings.Contains r1.accept "text/html" = false)
    (hu2 : (h.graphiql = false ∧ h.playground = false) ∨ (r2.QueryArgs L).Has "raw" = true ∨
      strings.Contains r2.accept "application/json" = true ∨
      strings.Contains r2.accept "text/html" = false) :
    ∃ o1 o2, ServeHTTP L E h { Request := r1 } = some o1 ∧
      ServeHTTP L E h { Request := r2 } = some o2 ∧
      (o1.reqCtx.mode = Mode.StaticAsset ↔ o2.reqCtx.mode = Mode.StaticAsset) ∧
      (o1.reqCtx.mode = Mode.StaticAsset ↔
        r1.Method = "GET" ∧ strings.Contains r1.path "/static/" = true) := by
  have key : ∀ r : Request,
      ((h.graphiql = false ∧ h.playground = false) ∨ (r.QueryArgs L).Has "raw" = true ∨
        strings.Contains r.accept "application/json" = true ∨
        strings.Contains r.accept "text/html" = false) →
      ∃ o, ServeHTTP L E h { Request := r } = some o ∧
        (o.reqCtx.mode = Mode.StaticAsset ↔
          r.Method = "GET" ∧ strings.Contains r.path "/static/" = true) := by
    intro r hu
    obtain ⟨o, ho, hmode⟩ := ServeHTTP_mode L E h r schema hs
    refine ⟨o, ho, ?_⟩
    have hg : (h.graphiql && uiRequested L r) = false := by
      rcases hu with ⟨hg, -⟩ | hraw | hj | hh
      · simp [hg]
      · simp [uiRequested, hraw]
      · simp [uiRequested, hj]
      · simp [uiRequested, hh]
    have hpl : (h.playground && uiRequested L r) = false := by
      rcases hu with ⟨-, hpl⟩ | hraw | hj | hh
      · simp [hpl]
      · simp [uiRequested, hraw]
      · simp [uiRequested, hj]
      · simp [uiRequested, hh]
    rw [hmode, hg, hpl]
    generalize strings.Contains r.path "/static/" = c
    by_cases hm : r.Method = "GET" <;> cases c <;> simp [hm]
  obtain ⟨o1, ho1, k1⟩ := key r1 hu1
  obtain ⟨o2, ho2, k2⟩ := key r2 hu2
  refine ⟨o1, o2, ho1, ho2, ?_, k1⟩
  rw [k1, k2, hm, hp]

theorem static_routing_without_ui_witness :
    ∃ o1 o2,
      ServeHTTP plainRuntime plainEnv (plainHandler true true)
        { Request := { method := "GET", path := "/static/app.js", queryString := "raw",
                       accept := "text/html" } } = some o1 ∧
      ServeHTTP plainRuntime plainEnv (plainHandler true true)
        { Request := { method := "GET", path := "/static/app.js", accept := "image/png" } } = some o2 ∧
      (o1.reqCtx.mode = Mode.StaticAsset ↔ o2.reqCtx.mode = Mode.StaticAsset) ∧
      (o1.reqCtx.mode = Mode.StaticAsset ↔
        Request.Method { method := "GET", path := "/static/app.js", queryString := "raw",
                         accept := "text/html" } = "GET" ∧
          strings.Contains "/static/app.js" "/static/" = true) :=
  static_routing_without_ui plainRuntime plainEnv (plainHandler true true)
    { method := "GET", path := "/static/app.js", queryString := "raw", accept := "text/html" }
    { method := "GET", path := "/static/app.js", accept := "image/png" } "schema" rfl (by rfl) (by rfl)
    (Or.inr (Or.inl (by rfl))) (Or.inr (Or.inr (Or.inr (by rfl))))

/-- C17. With a `FormatErrorFn` `f` configured and a result of the engine that
carries `n ≥ 1` errors, the error list is replaced by the `n` errors `f e`, for
`e` the original error of each of the engine's errors in order, and `f` is
called with exactly these original errors in this order. With no error in the
result, or no `FormatErrorFn`, `f` is not called and the result is left as the
engine returned it. -/
theorem errors_are_reshaped {F S Err CB : Type} (L : Runtime F) (E : Env F S Err)
    (h : Handler F S Err CB) (r : Request) (schema : S) (hs : h.Schema = some schema) :
    ∃ o, ServeHTTP L E h { Request := r } = some o ∧
      (∀ f, h.formatErrorFn = some f → (E.Do 0 o.params).Errors.length ≥ 1 →
        o.result.Errors = (E.Do 0 o.params).Errors.map (fun e => f e.OriginalError) ∧
        o.result.Errors.length = (E.Do 0 o.params).Errors.length ∧
        formatErrorCalls o.reqCtx.events =
          (E.Do 0 o.params).Errors.map (fun e => e.OriginalError)) ∧
      (h.formatErrorFn = none ∨ (E.Do 0 o.params).Errors.length = 0 →
        o.result = E.Do 0 o.params ∧ formatErrorCalls o.reqCtx.events = []) := by
  obtain ⟨opts, hopts⟩ := Option.isSome_iff_exists.1 (NewRequestOptions_isSome L r)
  obtain ⟨o, ho, hparams, hresult, -, -, -, -, hcalls⟩ :=
    ServeHTTP_calls L E h r schema opts hs hopts
  refine ⟨o, ho, ?_, ?_⟩
  · intro f hf hn
    rw [hparams] at hn ⊢
    have hpos : (E.Do 0 (paramsOf h schema opts r)).Errors.length > 0 := hn
    rw [hresult, hcalls]
    simp only [reshapedResult, hf, hpos, if_true, Option.isSome, decide_True, Bool.and_self,
      List.length_map]
    exact ⟨trivial, trivial, trivial⟩
  · intro hnone
    rw [hparams] at hnone ⊢
    rw [hresult, hcalls]
    rcases hnone with hf | hn
    · simp [reshapedResult, hf]
    · have hpos : ¬ (E.Do 0 (paramsOf h schema opts r)).Errors.length > 0 := by omega
      cases hf : h.formatErrorFn <;> simp [reshapedResult, hpos, hf]

theorem errors_are_reshaped_witness :
    ∃ o, ServeHTTP plainRuntime plainEnv (plainHandler false false)
        { Request := { method := "GET", queryString := "query=bad" } } = some o ∧
      (∀ f, (plainHandler false false).formatErrorFn = some f →
        (plainEnv.Do 0 o.params).Errors.length ≥ 1 →
        o.result.Errors = (plainEnv.Do 0 o.params).Errors.map (fun e => f e.OriginalError) ∧
        o.result.Errors.length = (plainEnv.Do 0 o.params).Errors.length ∧
        formatErrorCalls o.reqCtx.events =
          (plainEnv.Do 0 o.params).Errors.map (fun e => e.OriginalError)) ∧
      ((plainHandler false false).formatErrorFn = none ∨
          (plainEnv.Do 0 o.params).Errors.length = 0 →
        o.result = plainEnv.Do 0 o.params ∧ formatErrorCalls o.reqCtx.events = []) :=
  errors_are_reshaped plainRuntime plainEnv (plainHandler false false)
    { method := "GET", queryString := "query=bad" } "schema" rfl

/-- The routing conditions of a request that is answered with JSON. -/
theorem conditions_of_json_mode {F S Err CB : Type} (L : Runtime F) (E : Env F S Err)
    (h : Handler F S Err CB) (r : Request) (schema : S) (hs : h.Schema = some schema)
    (o : Outcome F S Err) (ho : ServeHTTP L E h { Request := r } = some o)
    (hmode : o.reqCtx.mode = Mode.JSONResult) :
    (h.graphiql && uiRequested L r) = false ∧ (h.playground && uiRequested L r) = false ∧
      (r.Method == "GET" && strings.Contains r.path "/static/") = false := by
  obtain ⟨o2, ho2, hm2⟩ := ServeHTTP_mode L E h r schema hs
  rw [ho] at ho2
  cases ho2
  rw [hm2] at hmode
  revert hmode
  cases (h.graphiql && uiRequested L r) <;> cases (h.playground && uiRequested L r) <;>
    cases (r.Method == "GET" && strings.Contains r.path "/static/") <;> simp

/-- C18. A request answered with JSON has status 200 and content type
`application/json; charset=utf-8`, and its body is what `json.MarshalIndent`
with a tab (pretty on) or `json.Marshal` (pretty off) returns for the result
after error reshaping: the serialization when there is one, nothing when the
serializer fails. -/
theorem json_response_is_serialized_result {F S Err CB : Type} (L : Runtime F)
    (E : Env F S Err) (h : Handler F S Err CB) (r : Request) (schema : S)
    (hs : h.Schema = some schema) :
    ∃ o, ServeHTTP L E h { Request := r } = some o ∧
      (o.reqCtx.mode = Mode.JSONResult →
        o.reqCtx.Response.statusCode = 200 ∧
        o.reqCtx.Response.contentType = "application/json; charset=utf-8" ∧
        o.result = reshapedResult h (E.Do 0 o.params) ∧
        (h.pretty = true →
          (∀ s, E.MarshalIndent o.result "\t" = Except.ok s → o.reqCtx.Response.body = s) ∧
          (∀ e, E.MarshalIndent o.result "\t" = Except.error e → o.reqCtx.Response.body = "")) ∧
        (h.pretty = false →
          (∀ s, E.Marshal o.result = Except.ok s → o.reqCtx.Response.body = s) ∧
          (∀ e, E.Marshal o.result = Except.error e → o.reqCtx.Response.body = ""))) := by
  obtain ⟨opts, hopts⟩ := Option.isSome_iff_exists.1 (NewRequestOptions_isSome L r)
  obtain ⟨o, ho, -⟩ := ServeHTTP_calls L E h r schema opts hs hopts
  refine ⟨o, ho, ?_⟩
  intro hmode
  obtain ⟨c1, c2, c3⟩ := conditions_of_json_mode L E h r schema hs o ho hmode
  have hjson := ServeHTTP_json L E h r schema opts hs hopts c1 c2 c3 _ rfl
  rw [hjson] at ho
  cases ho
  refine ⟨rfl, rfl, rfl, ?_, ?_⟩
  · intro hp
    simp only [hp, if_true]
    constructor
    · intro s hsok
      rw [hsok]
      rfl
    · intro e herr
      rw [herr]
      rfl
  · intro hp
    simp only [hp, Bool.false_eq_true, if_false]
    constructor
    · intro s hsok
      rw [hsok]
      rfl
    · intro e herr
      rw [herr]
      rfl

theorem json_response_is_serialized_result_witness :
    ∃ o, ServeHTTP plainRuntime plainEnv (plainHandler true false)
        { Request := { method := "GET", queryString := "query=bad", accept := "application/json" } } =
          some o ∧
      (o.reqCtx.mode = Mode.JSONResult →
        o.reqCtx.Response.statusCode = 200 ∧
        o.reqCtx.Response.contentType = "application/json; charset=utf-8" ∧
        o.result = reshapedResult (plainHandler true false) (plainEnv.Do 0 o.params) ∧
        ((plainHandler true false).pretty = true →
          (∀ s, plainEnv.MarshalIndent o.result "\t" = Except.ok s → o.reqCtx.Response.body = s) ∧
          (∀ e, plainEnv.MarshalIndent o.result "\t" = Except.error e →
            o.reqCtx.Response.body = "")) ∧
        ((plainHandler true false).pretty = false →
          (∀ s, plainEnv.Marshal o.result = Except.ok s → o.reqCtx.Response.body = s) ∧
          (∀ e, plainEnv.Marshal o.result = Except.error e → o.reqCtx.Response.body = ""))) :=
  json_response_is_serialized_result plainRuntime plainEnv (plainHandler true false)
    { method := "GET", queryString := "query=bad", accept := "application/json" } "schema" rfl

/-- C19. With a `ResultCallbackFn` configured, a request answered with JSON
calls it exactly once, as the last call and right after the write of the body,
with the params built from the resolved request (its query, variables and
operation name), the result, and the bytes that were written as the body. A
request answered by an interactive UI or by a static asset does not call it. -/
theorem result_callback_called_once {F S Err CB : Type} (L : Runtime F) (E : Env F S Err)
    (h : Handler F S Err CB) (r : Request) (schema : S) (cb : CB) (opts : RequestOptions F)
    (hs : h.Schema = some schema) (hcb : h.resultCallbackFn = some cb)
    (hopts : NewRequestOptions L r = some opts) :
    ∃ o, ServeHTTP L E h { Request := r } = some o ∧
      o.params.RequestString = opts.Query ∧ o.params.VariableValues = opts.Variables ∧
      o.params.OperationName = opts.OperationName ∧
      (o.reqCtx.mode = Mode.JSONResult →
        ∃ (pre : List (Event F S Err)) (buff : Option String),
          o.reqCtx.events =
            pre ++ [Event.Write (bytesToString buff),
              Event.resultCallbackFn o.params o.result buff] ∧
          pre.any Event.isResultCallbackFn = false ∧
          (o.reqCtx.events.filter Event.isResultCallbackFn).length = 1 ∧
          o.reqCtx.Response.body = bytesToString buff) ∧
      (o.reqCtx.mode ≠ Mode.JSONResult →
        o.reqCtx.events.any Event.isResultCallbackFn = false) := by
  obtain ⟨o, ho, hparams, -, -, -, -, h4, -⟩ := ServeHTTP_calls L E h r schema opts hs hopts
  refine ⟨o, ho, by rw [hparams]; rfl, by rw [hparams]; rfl, by rw [hparams]; rfl, ?_, ?_⟩
  · intro hmode
    obtain ⟨c1, c2, c3⟩ := conditions_of_json_mode L E h r schema hs o ho hmode
    have hjson := ServeHTTP_json L E h r schema opts hs hopts c1 c2 c3 _ rfl
    have hpre := (callsBeforeRouting_any h (paramsOf h schema opts r)
      (E.Do 0 (paramsOf h schema opts r))).2.2.2
    rw [hjson] at ho
    cases ho
    refine ⟨callsBeforeRouting h (paramsOf h schema opts r) (E.Do 0 (paramsOf h schema opts r)),
      _, ?_, hpre, ?_, rfl⟩
    · simp only [hcb, List.append_assoc, List.singleton_append]
    · have hnil : (callsBeforeRouting h (paramsOf h schema opts r)
          (E.Do 0 (paramsOf h schema opts r))).filter Event.isResultCallbackFn = [] := by
        rw [List.filter_eq_nil_iff]
        intro e he
        have := List.any_eq_false.1 hpre e he
        simpa using this
      simp only [hcb, List.filter_append, hnil, List.nil_append]
      simp [List.filter, Event.isResultCallbackFn]
  · intro hmode
    obtain ⟨o2, ho2, hm2⟩ := ServeHTTP_mode L E h r schema hs
    rw [ho] at ho2
    cases ho2
    rw [h4]
    rw [hm2] at hmode
    revert hmode
    cases (h.graphiql && uiRequested L r) <;> cases (h.playground && uiRequested L r) <;>
      cases (r.Method == "GET" && strings.Contains r.path "/static/") <;> simp

theorem result_callback_called_once_witness :
    ∃ o, ServeHTTP plainRuntime plainEnv (plainHandler true false)
        { Request := { method := "GET", queryString := "query=hero&operationName=Q" } } = some o ∧
      o.params.RequestString = "hero" ∧ o.params.VariableValues = some [] ∧
      o.params.OperationName = "Q" ∧
      (o.reqCtx.mode = Mode.JSONResult →
        ∃ (pre : List (Event String String String)) (buff : Option String),
          o.reqCtx.events =
            pre ++ [Event.Write (bytesToString buff),
              Event.resultCallbackFn o.params o.result buff] ∧
          pre.any Event.isResultCallbackFn = false ∧
          (o.reqCtx.events.filter Event.isResultCallbackFn).length = 1 ∧
          o.reqCtx.Response.body = bytesToString buff) ∧
      (o.reqCtx.mode ≠ Mode.JSONResult →
        o.reqCtx.events.any Event.isResultCallbackFn = false) :=
  result_callback_called_once plainRuntime plainEnv (plainHandler true false)
    { method := "GET", queryString := "query=hero&operationName=Q" } "schema" "callback"
    { Query := "hero", Variables := some [], OperationName := "Q" } rfl rfl (by rfl)

/-- C20. `New` panics, with the message `undefined GraphQL schema`, if and
only if its argument is nil or has a nil `Schema`; `New(nil)` panics; and for a
config with a schema it returns the handler whose schema, pretty, graphiql and
playground settings and three callbacks are the config's. -/
theorem New_panics_iff_no_schema {F S Err CB : Type} (p : Option (Config F S Err CB)) :
    ((∃ msg, New p = Except.error msg) ↔ (p = none ∨ ∃ c, p = some c ∧ c.Schema = none)) ∧
      (∀ msg, New p = Except.error msg → msg = "undefined GraphQL schema") ∧
      New (none : Option (Config F S Err CB)) = Except.error "undefined GraphQL schema" ∧
      (∀ c s, p = some c → c.Schema = some s →
        New p = Except.ok
          { Schema := some s
            pretty := c.Pretty
            graphiql := c.GraphiQL
            playground := c.Playground
            rootObjectFn := c.RootObjectFn
            resultCallbackFn := c.ResultCallbackFn
            formatErrorFn := c.FormatErrorFn }) := by
  refine ⟨?_, ?_, rfl, ?_⟩
  · cases p with
    | none => simp [New, NewConfig]
    | some c =>
      cases hc : c.Schema with
      | none => simp [New, hc]
      | some s => simp [New, hc]
  · intro msg hmsg
    cases p with
    | none =>
      simp only [New, NewConfig] at hmsg
      cases hmsg
      rfl
    | some c =>
      cases hc : c.Schema with
      | none =>
        simp only [New, hc] at hmsg
        cases hmsg
        rfl
      | some s => simp [New, hc] at hmsg
  · intro c s hp hc
    subst hp
    simp only [New, hc]

/-! ## Properties of `serveStatic` and `renderGraphiQL` -/

theorem utf8ByteSize_go_append (a b : List Char) :
    String.utf8ByteSize.go (a ++ b) = String.utf8ByteSize.go a + String.utf8ByteSize.go b := by
  induction a with
  | nil => simp [String.utf8ByteSize.go]
  | cons c a ih =>
    show String.utf8ByteSize.go (a ++ b) + c.utf8Size =
      String.utf8ByteSize.go a + c.utf8Size + String.utf8ByteSize.go b
    rw [ih]
    omega

/-- A text is at least as long as a prefix of it. -/
theorem utf8ByteSize_go_le_of_isPrefixOf (sub cs : List Char) (h : sub.isPrefixOf cs = true) :
    String.utf8ByteSize.go sub ≤ String.utf8ByteSize.go cs := by
  obtain ⟨t, ht⟩ := List.isPrefixOf_iff_prefix.1 h
  rw [← ht, utf8ByteSize_go_append]
  omega

/-- A text that contains `sub` has a first occurrence of it, which ends within
the text. -/
theorem indexChars_of_contains (sub cs : List Char)
    (h : cs.tails.any (fun t => sub.isPrefixOf t) = true) :
    ∃ i, strings.indexChars sub cs = some i ∧
      i + String.utf8ByteSize.go sub ≤ String.utf8ByteSize.go cs := by
  induction cs with
  | nil =>
    simp only [List.tails, List.any_cons, List.any_nil, Bool.or_false] at h
    have hsub : sub = [] := by
      cases sub with
      | nil => rfl
      | cons a sub => simp [List.isPrefixOf] at h
    subst hsub
    exact ⟨0, by simp [strings.indexChars], by simp⟩
  | cons c cs ih =>
    by_cases hpre : sub.isPrefixOf (c :: cs) = true
    · refine ⟨0, by simp [strings.indexChars, hpre], ?_⟩
      have := utf8ByteSize_go_le_of_isPrefixOf sub (c :: cs) hpre
      omega
    · have hrest : cs.tails.any (fun t => sub.isPrefixOf t) = true := by
        simp only [List.tails, List.any_cons, Bool.or_eq_true] at h
        rcases h with h | h
        · exact absurd h hpre
        · exact h
      obtain ⟨i, hi, hle⟩ := ih hrest
      refine ⟨i + c.utf8Size, by simp [strings.indexChars, hpre, hi], ?_⟩
      simp only [String.utf8ByteSize.go]
      omega

/-- For a path that contains `/static/`, the slice expression of `serveStatic`
is in range. -/
theorem sliceFrom_of_contains_static (path : String)
    (h : strings.Contains path "/static/" = true) :
    ∃ rest, sliceFrom path (strings.Index path "/static/" + 8) = some rest := by
  obtain ⟨i, hi, hle⟩ := indexChars_of_contains "/static/".toList path.toList h
  have h8 : String.utf8ByteSize.go "/static/".toList = 8 := by decide
  have hsize : path.utf8ByteSize = String.utf8ByteSize.go path.toList := by
    cases path
    rfl
  have hidx : strings.Index path "/static/" = (i : Int) := by
    simp only [strings.Index, hi]
  have hn : ((i : Int) + 8).toNat = i + 8 := by omega
  refine ⟨String.mk (dropBytes (i + 8) path.toList), ?_⟩
  unfold sliceFrom
  rw [hidx, hn]
  have hcond : 0 ≤ (i : Int) + 8 ∧ i + 8 ≤ path.utf8ByteSize := by
    constructor
    · omega
    · rw [hsize]
      omega
  rw [if_pos hcond]

/-- When `serveStatic` panics, for a path that contains `/static/`: exactly
when the store reports no missing file, the extension of the stripped path has
no MIME type, and the capacity of the content is below 1024. -/
theorem serveStatic_panicked_iff {F S Err : Type} (E : Env F S Err) (ctx : RequestCtx F S Err)
    (hpath : strings.Contains ctx.Request.path "/static/" = true)
    (hp : ctx.panicked = false) :
    ∃ rest, sliceFrom ctx.Request.path (strings.Index ctx.Request.path "/static/" + 8) = some rest ∧
      ((serveStatic E ctx).panicked = true ↔
        (E.Find rest).2 ≠ FindError.notExist ∧ E.TypeByExtension (filepath.Ext rest) = "" ∧
          (E.Find rest).1.cap < 1024) := by
  obtain ⟨rest, hrest⟩ := sliceFrom_of_contains_static ctx.Request.path hpath
  refine ⟨rest, hrest, ?_⟩
  unfold serveStatic
  simp only [hrest]
  cases hf : (E.Find rest).2 with
  | notExist => simp [RequestCtx.SetStatusCode, RequestCtx.log, hp]
  | nil =>
    by_cases ht : E.TypeByExtension (filepath.Ext rest) = "" <;>
      by_cases hc : 1024 ≤ (E.Find rest).1.cap <;>
      simp [ht, hc, RequestCtx.SetContentType, RequestCtx.SetBody, RequestCtx.log, hp]
    omega
  | other msg =>
    by_cases ht : E.TypeByExtension (filepath.Ext rest) = "" <;>
      by_cases hc : 1024 ≤ (E.Find rest).1.cap <;>
      simp [ht, hc, RequestCtx.SetContentType, RequestCtx.SetBody, RequestCtx.log, hp]
    omega

/-- C21. On the code `serveStatic` does panic: for a request whose path
contains `/static/`, when the asset store returns a content of capacity below
1024 (a short file, or no content with a fault other than not-found) and the
extension of the stripped path has no MIME type, the slice `content[:1024]` is
out of range. -/
theorem serveStatic_panics_on_short_content {F S Err : Type} (E : Env F S Err)
    (ctx : RequestCtx F S Err) (rest : String)
    (_hpath : strings.Contains ctx.Request.path "/static/" = true)
    (hrest : sliceFrom ctx.Request.path (strings.Index ctx.Request.path "/static/" + 8) = some rest)
    (hfind : (E.Find rest).2 ≠ FindError.notExist)
    (htype : E.TypeByExtension (filepath.Ext rest) = "")
    (hcap : (E.Find rest).1.cap < 1024) :
    (serveStatic E ctx).panicked = true := by
  unfold serveStatic
  simp only [hrest]
  cases hf : (E.Find rest).2 with
  | notExist => exact absurd hf hfind
  | nil => simp [htype, RequestCtx.log, Nat.not_le.2 hcap]
  | other msg => simp [htype, RequestCtx.log, Nat.not_le.2 hcap]

theorem serveStatic_panics_on_short_content_witness :
    (serveStatic shortAssetEnv
      { Request := { method := "GET", path := "/static/LICENSE" } }).panicked = true :=
  serveStatic_panics_on_short_content shortAssetEnv
    { Request := { method := "GET", path := "/static/LICENSE" } } "LICENSE"
    (by rfl) (by rfl) (by simp [shortAssetEnv]) (by rfl) (by decide)

/-- The template is executed with no page data before routing. -/
theorem callsBeforeRouting_executedGraphiQL {F S Err CB : Type} (h : Handler F S Err CB)
    (params : Params F S) (result : Result F Err) :
    executedGraphiQL (callsBeforeRouting h params result) = [] := by
  unfold callsBeforeRouting executedGraphiQL
  cases h.rootObjectFn <;> cases h.formatErrorFn <;>
    by_cases herr : result.Errors.length > 0 <;>
    simp [herr, List.filterMap_append, List.filterMap_map, Function.comp_def]

/-- The engine is called once before routing. -/
theorem callsBeforeRouting_doCalls {F S Err CB : Type} (h : Handler F S Err CB)
    (params : Params F S) (result : Result F Err) (tail : List (Event F S Err))
    (htail : tail.any Event.isDo = false) :
    ((callsBeforeRouting h params result ++ tail).filter Event.isDo).length = 1 := by
  have ht : tail.filter Event.isDo = [] := by
    rw [List.filter_eq_nil_iff]
    intro e he
    have := List.any_eq_false.1 htail e he
    simpa using this
  unfold callsBeforeRouting
  cases h.rootObjectFn <;> cases h.formatErrorFn <;>
    by_cases herr : result.Errors.length > 0 <;>
    simp [herr, List.filter_append, List.filter_map, ht, Event.isDo, List.filter_cons,
      Function.comp_def]

/-- What `renderGraphiQL` hands to the template when the template parses and the
variables serialize: the empty string as result for the empty query, and
otherwise the serialization of the result of an engine call of its own. -/
theorem renderGraphiQL_executed {F S Err : Type} (E : Env F S Err) (ctx : RequestCtx F S Err)
    (params : Params F S) (vars : String) (hparse : E.ParseGraphiQL = none)
    (hvars : E.MarshalIndentVariables params.VariableValues = Except.ok vars) :
    (params.RequestString = "" →
      executedGraphiQL (renderGraphiQL E ctx params).events =
        executedGraphiQL ctx.events ++
          [{ GraphiqlVersion := graphiqlVersion
             QueryString := params.RequestString
             ResultString := ""
             VariablesString := if vars = "null" then "" else vars
             OperationName := params.OperationName
             Path := strings.TrimSuffix ctx.Request.path "/" }]) ∧
    (params.RequestString ≠ "" → ∀ s,
      E.MarshalIndent (E.Do ctx.doCalls params) "  " = Except.ok s →
      executedGraphiQL (renderGraphiQL E ctx params).events =
        executedGraphiQL ctx.events ++
          [{ GraphiqlVersion := graphiqlVersion
             QueryString := params.RequestString
             ResultString := s
             VariablesString := if vars = "null" then "" else vars
             OperationName := params.OperationName
             Path := strings.TrimSuffix ctx.Request.path "/" }]) := by
  constructor
  · intro hq
    unfold renderGraphiQL
    simp only [hparse, hvars, hq, if_true]
    cases hx : (E.ExecuteGraphiQL _).2 <;>
      simp [hx, executedGraphiQL, RequestCtx.Error, RequestCtx.Write, RequestCtx.log,
        RequestCtx.SetContentType, List.filterMap_append]
  · intro hq s hs
    unfold renderGraphiQL
    simp only [hparse, hvars, hq, if_false, hs]
    cases hx : (E.ExecuteGraphiQL _).2 <;>
      simp [hx, executedGraphiQL, RequestCtx.Error, RequestCtx.Write, RequestCtx.log,
        RequestCtx.SetContentType, List.filterMap_append]

/-- The routing condition of a request that is answered by GraphiQL. -/
theorem condition_of_graphiql_mode {F S Err CB : Type} (L : Runtime F) (E : Env F S Err)
    (h : Handler F S Err CB) (r : Request) (schema : S) (hs : h.Schema = some schema)
    (o : Outcome F S Err) (ho : ServeHTTP L E h { Request := r } = some o) :
    o.reqCtx.mode = Mode.GraphiQL ↔ (h.graphiql && uiRequested L r) = true := by
  obtain ⟨o2, ho2, hm2⟩ := ServeHTTP_mode L E h r schema hs
  rw [ho] at ho2
  cases ho2
  rw [hm2]
  cases (h.graphiql && uiRequested L r) <;> cases (h.playground && uiRequested L r) <;>
    cases (r.Method == "GET" && strings.Contains r.path "/static/") <;> simp

/-- C22, as stated, fails. For the empty query the GraphiQL page is given the
empty string as result, although the result of the EXECUTE step serializes to a
text; for the query `bad` it is given the errors `m1`, `m2` of a second engine
call, although the result of the EXECUTE step carries the errors reshaped by
`FormatErrorFn`. -/
theorem graphiql_page_result_is_not_execute_result :
    (∃ o d, ServeHTTP plainRuntime plainEnv (plainHandler true false)
        { Request := { method := "GET", path := "/graphql", accept := "text/html" } } = some o ∧
      o.reqCtx.mode = Mode.GraphiQL ∧ executedGraphiQL o.reqCtx.events = [d] ∧
      d.ResultString = "" ∧ plainEnv.MarshalIndent o.result "  " = Except.ok "  ") ∧
    (∃ o d, ServeHTTP plainRuntime plainEnv (plainHandler true false)
        { Request := { method := "GET", path := "/graphql", queryString := "query=bad",
                       accept := "text/html" } } = some o ∧
      o.reqCtx.mode = Mode.GraphiQL ∧ executedGraphiQL o.reqCtx.events = [d] ∧
      d.ResultString = "  m1m2" ∧
      plainEnv.MarshalIndent o.result "  " = Except.ok "  formatted e1formatted e2") :=
  ⟨⟨_, _, rfl, by rfl, by rfl, by rfl, by rfl⟩, ⟨_, _, rfl, by rfl, by rfl, by rfl, by rfl⟩⟩

/-- C22, amended. For every request routed to the GraphiQL UI whose page is
rendered (the template parses and the variables serialize), the result handed
to the template is the empty string for the empty query, and for a non-empty
query the two-space indented serialization of the result the engine returns
when the renderer calls it, after the EXECUTE step, with the params of the
resolved request; the query and operation name handed over are those params'. -/
theorem graphiql_page_embeds_rerun_result {F S Err CB : Type} (L : Runtime F)
    (E : Env F S Err) (h : Handler F S Err CB) (r : Request) (schema : S)
    (hs : h.Schema = some schema) :
    ∃ o, ServeHTTP L E h { Request := r } = some o ∧
      (o.reqCtx.mode = Mode.GraphiQL → E.ParseGraphiQL = none →
        ∀ vars, E.MarshalIndentVariables o.params.VariableValues = Except.ok vars →
          (o.params.RequestString = "" →
            executedGraphiQL o.reqCtx.events =
              [{ GraphiqlVersion := graphiqlVersion
                 QueryString := ""
                 ResultString := ""
                 VariablesString := if vars = "null" then "" else vars
                 OperationName := o.params.OperationName
                 Path := strings.TrimSuffix r.path "/" }]) ∧
          (o.params.RequestString ≠ "" → ∀ s,
            E.MarshalIndent (E.Do 1 o.params) "  " = Except.ok s →
            executedGraphiQL o.reqCtx.events =
              [{ GraphiqlVersion := graphiqlVersion
                 QueryString := o.params.RequestString
                 ResultString := s
                 VariablesString := if vars = "null" then "" else vars
                 OperationName := o.params.OperationName
                 Path := strings.TrimSuffix r.path "/" }])) := by
  obtain ⟨opts, hopts⟩ := Option.isSome_iff_exists.1 (NewRequestOptions_isSome L r)
  have hfresh := ServeHTTP_fresh L E h r schema opts hs hopts
  refine ⟨_, hfresh, ?_⟩
  intro hmode hparse vars hvars
  have hg := (condition_of_graphiql_mode L E h r schema hs _ hfresh).1 hmode
  simp only [hg, if_true] at hvars ⊢
  have hcount : RequestCtx.doCalls
      ({ Request := r
         events := callsBeforeRouting h (paramsOf h schema opts r)
           (E.Do 0 (paramsOf h schema opts r)) ++
             [Event.renderGraphiQL (paramsOf h schema opts r)] } : RequestCtx F S Err) = 1 :=
    callsBeforeRouting_doCalls h _ _ _ (by simp [Event.isDo])
  obtain ⟨hempty, hfull⟩ := renderGraphiQL_executed E
    { Request := r
      events := callsBeforeRouting h (paramsOf h schema opts r)
        (E.Do 0 (paramsOf h schema opts r)) ++
          [Event.renderGraphiQL (paramsOf h schema opts r)] }
    (paramsOf h schema opts r) vars hparse hvars
  have hbase : executedGraphiQL
      (callsBeforeRouting h (paramsOf h schema opts r) (E.Do 0 (paramsOf h schema opts r)) ++
        [Event.renderGraphiQL (paramsOf h schema opts r)]) = [] := by
    have := callsBeforeRouting_executedGraphiQL h (paramsOf h schema opts r)
      (E.Do 0 (paramsOf h schema opts r))
    unfold executedGraphiQL at this ⊢
    rw [List.filterMap_append, this]
    rfl
  constructor
  · intro hq
    rw [hempty hq, hbase, hq]
    rfl
  · intro hq s hs2
    rw [hcount] at hfull
    rw [hfull hq s hs2, hbase]
    rfl

theorem graphiql_page_embeds_rerun_result_witness :
    ∃ o, ServeHTTP plainRuntime plainEnv (plainHandler true false)
        { Request := { method := "GET", path := "/graphql", queryString := "query=bad",
                       accept := "text/html" } } = some o ∧
      (o.reqCtx.mode = Mode.GraphiQL → plainEnv.ParseGraphiQL = none →
        ∀ vars, plainEnv.MarshalIndentVariables o.params.VariableValues = Except.ok vars →
          (o.params.RequestString = "" →
            executedGraphiQL o.reqCtx.events =
              [{ GraphiqlVersion := graphiqlVersion
                 QueryString := ""
                 ResultString := ""
                 VariablesString := if vars = "null" then "" else vars
                 OperationName := o.params.OperationName
                 Path := strings.TrimSuffix "/graphql" "/" }]) ∧
          (o.params.RequestString ≠ "" → ∀ s,
            plainEnv.MarshalIndent (plainEnv.Do 1 o.params) "  " = Except.ok s →
            executedGraphiQL o.reqCtx.events =
              [{ GraphiqlVersion := graphiqlVersion
                 QueryString := o.params.RequestString
                 ResultString := s
                 VariablesString := if vars = "null" then "" else vars
                 OperationName := o.params.OperationName
                 Path := strings.TrimSuffix "/graphql" "/" }])) :=
  graphiql_page_embeds_rerun_result plainRuntime plainEnv (plainHandler true false)
    { method := "GET", path := "/graphql", queryString := "query=bad", accept := "text/html" }
    "schema" rfl

/-- `renderPlayground` does not call the engine. -/
theorem renderPlayground_no_Do {F S Err : Type} (E : Env F S Err) (ctx : RequestCtx F S Err) :
    ∃ extra, (renderPlayground E ctx).events = ctx.events ++ extra ∧
      extra.any Event.isDo = false := by
  unfold renderPlayground
  cases E.ParsePlayground with
  | some err => exact ⟨[], by simp [RequestCtx.Error], by simp⟩
  | none =>
    simp only []
    cases hx : (E.ExecutePlayground _).2 <;>
      exact ⟨_, by
        simp only [hx, RequestCtx.Error, RequestCtx.Write, RequestCtx.log,
          RequestCtx.SetContentType, List.append_assoc]; rfl, by
        simp [Event.isDo]⟩

/-- `serveStatic` does not call the engine. -/
theorem serveStatic_no_Do {F S Err : Type} (E : Env F S Err) (ctx : RequestCtx F S Err) :
    ∃ extra, (serveStatic E ctx).events = ctx.events ++ extra ∧
      extra.any Event.isDo = false := by
  unfold serveStatic
  simp only []
  cases sliceFrom ctx.Request.path (strings.Index ctx.Request.path "/static/" + 8) with
  | none => exact ⟨[], by simp, by simp⟩
  | some path =>
    simp only []
    cases (E.Find path).2 with
    | notExist =>
      exact ⟨_, by
        simp only [RequestCtx.SetStatusCode, RequestCtx.log, List.append_assoc]; rfl, by
        simp [Event.isDo]⟩
    | nil =>
      simp only []
      split <;> [split; skip] <;>
        exact ⟨_, by
          simp only [RequestCtx.SetContentType, RequestCtx.SetBody, RequestCtx.log]; rfl, by
          simp [Event.isDo]⟩
    | other msg =>
      simp only []
      split <;> [split; skip] <;>
        exact ⟨_, by
          simp only [RequestCtx.SetContentType, RequestCtx.SetBody, RequestCtx.log,
            List.append_assoc]; rfl, by
          simp [Event.isDo]⟩

/-- `renderGraphiQL` does not call the engine for the empty query. -/
theorem renderGraphiQL_no_Do_of_empty_query {F S Err : Type} (E : Env F S Err)
    (ctx : RequestCtx F S Err) (params : Params F S) (hq : params.RequestString = "") :
    ∃ extra, (renderGraphiQL E ctx params).events = ctx.events ++ extra ∧
      extra.any Event.isDo = false := by
  unfold renderGraphiQL
  cases E.ParseGraphiQL with
  | some err => exact ⟨[], by simp [RequestCtx.Error], by simp⟩
  | none =>
    cases E.MarshalIndentVariables params.VariableValues with
    | error err => exact ⟨[], by simp [RequestCtx.Error], by simp⟩
    | ok vars =>
      simp only [hq, if_true]
      cases hx : (E.ExecuteGraphiQL _).2 <;>
        exact ⟨_, by
          simp only [hx, RequestCtx.Error, RequestCtx.Write, RequestCtx.log,
            RequestCtx.SetContentType, List.append_assoc]; rfl, by
          simp [Event.isDo]⟩

/-- The calls before routing: `rootObjectFn` when configured, then the engine,
then the calls of `formatErrorFn`. -/
theorem callsBeforeRouting_split {F S Err CB : Type} (h : Handler F S Err CB)
    (params : Params F S) (result : Result F Err) :
    ∃ pre fmt, callsBeforeRouting h params result = pre ++ Event.Do params :: fmt ∧
      (pre = [] ∨ pre = [Event.rootObjectFn]) ∧ fmt.any Event.isDo = false := by
  unfold callsBeforeRouting
  refine ⟨_, _, by rw [List.append_assoc]; rfl, ?_, ?_⟩
  · cases h.rootObjectFn
    · exact Or.inl rfl
    · exact Or.inr rfl
  · split
    · simp [List.any_map, Event.isDo, Function.comp_def]
    · rfl

/-- The calls of a served request after those before routing; they hold no
engine call unless the request is answered by GraphiQL with a non-empty query. -/
theorem ServeHTTP_calls_after_routing {F S Err CB : Type} (L : Runtime F) (E : Env F S Err)
    (h : Handler F S Err CB) (r : Request) (schema : S) (opts : RequestOptions F)
    (hs : h.Schema = some schema) (hopts : NewRequestOptions L r = some opts) :
    ∃ o tail, ServeHTTP L E h { Request := r } = some o ∧
      o.params = paramsOf h schema opts r ∧
      o.reqCtx.events =
        callsBeforeRouting h (paramsOf h schema opts r) (E.Do 0 (paramsOf h schema opts r)) ++
          tail ∧
      (¬ ((h.graphiql && uiRequested L r) = true ∧ opts.Query ≠ "") →
        tail.any Event.isDo = false) := by
  have hfresh := ServeHTTP_fresh L E h r schema opts hs hopts
  by_cases hg : (h.graphiql && uiRequested L r) = true
  · by_cases hq : opts.Query = ""
    · obtain ⟨extra, hev, hno⟩ := renderGraphiQL_no_Do_of_empty_query E
        { Request := r
          events := callsBeforeRouting h (paramsOf h schema opts r)
            (E.Do 0 (paramsOf h schema opts r)) ++
              [Event.renderGraphiQL (paramsOf h schema opts r)] }
        (paramsOf h schema opts r) hq
      refine ⟨_, Event.renderGraphiQL (paramsOf h schema opts r) :: extra, hfresh, rfl, ?_, ?_⟩
      · simp only [hg, if_true]
        rw [hev]
        simp
      · intro _
        simp [hno, Event.isDo]
    · obtain ⟨extra, hev, -⟩ := renderGraphiQL_events E
        { Request := r
          events := callsBeforeRouting h (paramsOf h schema opts r)
            (E.Do 0 (paramsOf h schema opts r)) ++
              [Event.renderGraphiQL (paramsOf h schema opts r)] }
        (paramsOf h schema opts r)
      refine ⟨_, Event.renderGraphiQL (paramsOf h schema opts r) :: extra, hfresh, rfl, ?_, ?_⟩
      · simp only [hg, if_true]
        rw [hev]
        simp
      · intro hn
        exact absurd ⟨hg, hq⟩ hn
  · rw [Bool.not_eq_true] at hg
    by_cases hpl : (h.playground && uiRequested L r) = true
    · obtain ⟨extra, hev, hno⟩ := renderPlayground_no_Do E
        { Request := r
          events := callsBeforeRouting h (paramsOf h schema opts r)
            (E.Do 0 (paramsOf h schema opts r)) ++ [Event.renderPlayground] }
      refine ⟨_, Event.renderPlayground :: extra, hfresh, rfl, ?_, ?_⟩
      · simp only [hg, hpl, Bool.false_eq_true, if_false, if_true]
        rw [hev]
        simp
      · intro _
        simp [hno, Event.isDo]
    · rw [Bool.not_eq_true] at hpl
      by_cases hst : (r.Method == "GET" && strings.Contains r.path "/static/") = true
      · obtain ⟨extra, hev, hno⟩ := serveStatic_no_Do E
          { Request := r
            events := callsBeforeRouting h (paramsOf h schema opts r)
              (E.Do 0 (paramsOf h schema opts r)) ++ [Event.serveStatic] }
        refine ⟨_, Event.serveStatic :: extra, hfresh, rfl, ?_, ?_⟩
        · simp only [hg, hpl, hst, Bool.false_eq_true, if_false, if_true]
          rw [hev]
          simp
        · intro _
          simp [hno, Event.isDo]
      · rw [Bool.not_eq_true] at hst
        have hjson := ServeHTTP_json L E h r schema opts hs hopts hg hpl hst _ rfl
        refine ⟨_, _, hjson, rfl, List.append_assoc _ _ _, ?_⟩
        intro _
        cases h.resultCallbackFn <;> simp [Event.isDo]

/-- C23, as stated, fails: a request with the query `hero` that is answered by
GraphiQL calls the engine twice, once before routing and once from
`renderGraphiQL`. -/
theorem graphiql_query_calls_engine_twice :
    ∃ o, ServeHTTP plainRuntime plainEnv (plainHandler true false)
        { Request := { method := "GET", path := "/graphql", queryString := "query=hero",
                       accept := "text/html" } } = some o ∧
      o.reqCtx.mode = Mode.GraphiQL ∧ o.reqCtx.doCalls = 2 :=
  ⟨_, rfl, by rfl, by rfl⟩

/-- C23, amended. Every request calls the engine before negotiation, as its
first call apart from `rootObjectFn`. In every response mode other than
GraphiQL with a non-empty query (Playground, static asset, JSON, and GraphiQL
for the empty query) the engine is not called again while the response is
produced, so it is called exactly once. -/
theorem engine_called_once_outside_graphiql_query {F S Err CB : Type} (L : Runtime F)
    (E : Env F S Err) (h : Handler F S Err CB) (r : Request) (schema : S)
    (hs : h.Schema = some schema) :
    ∃ o pre post, ServeHTTP L E h { Request := r } = some o ∧
      o.reqCtx.events = pre ++ Event.Do o.params :: post ∧
      (pre = [] ∨ pre = [Event.rootObjectFn]) ∧
      (¬ (o.reqCtx.mode = Mode.GraphiQL ∧ o.params.RequestString ≠ "") →
        post.any Event.isDo = false ∧ o.reqCtx.doCalls = 1) := by
  obtain ⟨opts, hopts⟩ := Option.isSome_iff_exists.1 (NewRequestOptions_isSome L r)
  obtain ⟨o, tail, ho, hparams, hev, hno⟩ :=
    ServeHTTP_calls_after_routing L E h r schema opts hs hopts
  obtain ⟨pre, fmt, hsplit, hpre, hfmt⟩ := callsBeforeRouting_split h
    (paramsOf h schema opts r) (E.Do 0 (paramsOf h schema opts r))
  refine ⟨o, pre, fmt ++ tail, ho, ?_, hpre, ?_⟩
  · rw [hev, hsplit, hparams]
    simp
  · intro hn
    have hcond : ¬ ((h.graphiql && uiRequested L r) = true ∧ opts.Query ≠ "") := by
      rintro ⟨hg, hq⟩
      apply hn
      refine ⟨(condition_of_graphiql_mode L E h r schema hs o ho).2 hg, ?_⟩
      rw [hparams]
      exact hq
    have htail := hno hcond
    refine ⟨by simp [List.any_append, hfmt, htail], ?_⟩
    unfold RequestCtx.doCalls
    rw [hev]
    exact callsBeforeRouting_doCalls h _ _ tail htail

theorem engine_called_once_outside_graphiql_query_witness :
    ∃ o pre post, ServeHTTP plainRuntime plainEnv (plainHandler true true)
        { Request := { method := "POST", path := "/graphql", contentType := "application/graphql",
                       body := some "bad", accept := "application/json" } } = some o ∧
      o.reqCtx.events = pre ++ Event.Do o.params :: post ∧
      (pre = [] ∨ pre = [Event.rootObjectFn]) ∧
      (¬ (o.reqCtx.mode = Mode.GraphiQL ∧ o.params.RequestString ≠ "") →
        post.any Event.isDo = false ∧ o.reqCtx.doCalls = 1) :=
  engine_called_once_outside_graphiql_query plainRuntime plainEnv (plainHandler true true)
    { method := "POST", path := "/graphql", contentType := "application/graphql",
      body := some "bad", accept := "application/json" } "schema" rfl

end Handler
